import Mathlib

/-!
Verification development for the datetime-js library.

The TypeScript sources embedded here:
* `DateTime` (construction, validation, epoch conversion, ISO-8601 parsing)
  from `src/DateTime.ts`;
* `DateTimeFormatter` (placeholder substitution engine) from
  `src/DateTimeFormatter.ts`.

JavaScript `number` values reaching these code paths are integers, so they
are embedded as `Int`.  `Math.floor(x / c)` for a positive literal `c` and
the non-negative remainders produced by ECMA-262's `modulo` operation are
embedded as `Int.ediv` / `Int.emod` (written `/` and `%`), which agree with
floor division and non-negative remainder for positive divisors.  The
JavaScript remainder operator `%` (truncating) is embedded as `Int.tmod`.

The library delegates calendar arithmetic to the host `Date` object.  Its
behaviour is fixed by ECMA-262 (proleptic Gregorian calendar):
`MakeDay`/`MakeDate`/`MakeTime` for writing fields and
`YearFromTime`/`MonthFromTime`/`DateFromTime`/`WeekDay`/`HourFromTime`/
`MinFromTime`/`SecFromTime`/`msFromTime` for reading them.  Those host
operations are embedded below as executable functions (`makeDay`,
`civilFromDays`, and the `DateTime` field getters); `civilFromDays` is an
executable implementation of the ECMA-262 year/month/day reading functions.

The `TimeZone` class is not part of the repository sources (the spec treats
it as an external collaborator), so it is modelled from the spec alone.
-/

/-- Is the character an ASCII decimal digit? -/
def isDigitChar (c : Char) : Bool :=
  '0' ≤ c ∧ c ≤ '9'

/-- Numeric value of an ASCII decimal digit. -/
def digitVal (c : Char) : Nat :=
  c.toNat - 48

/-- The ASCII digit character for a value in `0..9`. -/
def digitOf (d : Nat) : Char :=
  Char.ofNat (48 + d)

/-- Decimal digits of a natural number, most significant first.  The first
argument is fuel; any fuel exceeding the argument gives the full digit
string.  Model of ECMAScript `ToString` applied to a non-negative integer. -/
def natDigits : Nat → Nat → List Char
  | 0, _ => []
  | fuel + 1, n => if n < 10 then [digitOf n] else natDigits fuel (n / 10) ++ [digitOf (n % 10)]

/-- Decimal string of a natural number. -/
def natToString (n : Nat) : String :=
  ⟨natDigits (n + 1) n⟩

/-- Model of ECMAScript `ToString` applied to an integer (the string
interpolation `${value}` used by the library). -/
def intToString (i : Int) : String :=
  if i < 0 then "-" ++ natToString i.natAbs else natToString i.natAbs

/-- Value of a list of decimal digit characters, most significant first. -/
def digitsVal (l : List Char) : Nat :=
  l.foldl (fun acc c => 10 * acc + digitVal c) 0

/-- Model of `Number.parseInt` restricted to the plain decimal strings the
library feeds it (an optional sign followed by decimal digits).  `parseInt`
returns `NaN` on other inputs; that case is unreachable from the embedded
call sites and is mapped to `0` here. -/
def jsParseInt (s : String) : Int :=
  match s.data with
  | '-' :: rest => if rest ≠ [] ∧ rest.all isDigitChar then -(digitsVal rest : Int) else 0
  | '+' :: rest => if rest ≠ [] ∧ rest.all isDigitChar then (digitsVal rest : Int) else 0
  | l => if l ≠ [] ∧ l.all isDigitChar then (digitsVal l : Int) else 0

/-- Modelled from the spec: the `TimeZone` collaborator (its source is not in
the repository).  Per spec §2/§3/§6 it is an immutable wrapper around a
signed integer offset in minutes relative to UTC. -/
structure TimeZone where
  offset : Int
deriving DecidableEq

/-- Modelled from the spec: the UTC singleton, offset `0`. -/
def TimeZone.utc : TimeZone :=
  ⟨0⟩

/-- Modelled from the spec: the string form of an explicit offset accepted by
the `TimeZone` string constructor: `±HH:MM` or `±HHMM`, with the sign
optional (meaning `+`, per spec §4.2/§6).  Returns the offset in minutes. -/
def offsetMinutesOfChars : List Char → Option Int
  | '+' :: rest => offsetMinutesOfChars rest
  | '-' :: rest => (fun n => -n) <$> offsetMinutesOfChars rest
  | [h1, h2, ':', m1, m2] =>
    if isDigitChar h1 ∧ isDigitChar h2 ∧ isDigitChar m1 ∧ isDigitChar m2 then
      some ((60 * (10 * digitVal h1 + digitVal h2) + (10 * digitVal m1 + digitVal m2) : Nat))
    else none
  | [h1, h2, m1, m2] =>
    if isDigitChar h1 ∧ isDigitChar h2 ∧ isDigitChar m1 ∧ isDigitChar m2 then
      some ((60 * (10 * digitVal h1 + digitVal h2) + (10 * digitVal m1 + digitVal m2) : Nat))
    else none
  | _ => none

/-- Modelled from the spec: the `TimeZone` string constructor, restricted to
explicit-offset strings (spec §6).  Resolution of IANA zone identifiers is
the collaborator's responsibility and is out of scope; every string this
development feeds to the constructor is an explicit offset, so non-offset
inputs are mapped to UTC here. -/
def TimeZone.ofString (s : String) : TimeZone :=
  match offsetMinutesOfChars s.data with
  | some n => ⟨n⟩
  | none => ⟨0⟩

/-- ECMA-262 leap-year predicate (`DaysInYear(y) = 366`): `y` is divisible by
4 and either not divisible by 100 or divisible by 400.  ECMA-262's `modulo`
yields non-negative remainders, i.e. `Int.emod`. -/
def ecmaIsLeapYear (y : Int) : Bool :=
  y % 4 = 0 ∧ (y % 100 ≠ 0 ∨ y % 400 = 0)

/-- ECMA-262 `DayFromYear(y)`: the day number of 1 January of year `y`. -/
def dayFromYear (y : Int) : Int :=
  365 * (y - 1970) + (y - 1969) / 4 - (y - 1901) / 100 + (y - 1601) / 400

/-- Days in the year strictly before month `m` (`1`..`12`), per the ECMA-262
month boundaries used by `MakeDay`. -/
def daysBeforeMonth (m : Int) (leap : Bool) : Int :=
  let l : Int := if leap then 1 else 0
  if m = 1 then 0
  else if m = 2 then 31
  else if m = 3 then 59 + l
  else if m = 4 then 90 + l
  else if m = 5 then 120 + l
  else if m = 6 then 151 + l
  else if m = 7 then 181 + l
  else if m = 8 then 212 + l
  else if m = 9 then 243 + l
  else if m = 10 then 273 + l
  else if m = 11 then 304 + l
  else 334 + l

/-- ECMA-262 `MakeDay` for a 1-based month in `1..12`: the day number of the
given calendar date.  (The source passes `month - 1` to the 0-based `Date`
API; the embedding keeps the library's 1-based convention.) -/
def makeDay (y m d : Int) : Int :=
  dayFromYear y + daysBeforeMonth m (ecmaIsLeapYear y) + d - 1

/-- Executable implementation of the ECMA-262 field-reading functions
`YearFromTime`/`MonthFromTime`/`DateFromTime` on a day number: the unique
calendar date (year, 1-based month, day) whose `makeDay` is the argument.
Uses the standard era decomposition of the proleptic Gregorian calendar
(eras of 146097 days = 400 years, counted from 1 March of year 0). -/
def civilFromDays (z : Int) : Int × Int × Int :=
  let zs := z + 719468
  let era := zs / 146097
  let doe := zs - era * 146097
  let yoe := (doe - doe / 1460 + doe / 36524 - doe / 146096) / 365
  let doy := doe - (365 * yoe + yoe / 4 - yoe / 100)
  let mp := (5 * doy + 2) / 153
  let d := doy - (153 * mp + 2) / 5 + 1
  let m := if mp < 10 then mp + 3 else mp - 9
  (yoe + era * 400 + (if m ≤ 2 then 1 else 0), m, d)

/-- The `DateTime` class: an epoch timestamp in milliseconds plus a
`TimeZone`.  The source constructor additionally caches the calendar fields
read from the offset-shifted instant; those caches are pure functions of the
two stored values and are embedded as the getters below. -/
structure DateTime where
  timestamp : Int
  timeZone : TimeZone
deriving DecidableEq

/-- The offset-shifted instant the constructor reads the calendar fields
from: `timestamp + timeZone.offset * 60 * 1000`. -/
def DateTime.localMs (dt : DateTime) : Int :=
  dt.timestamp + dt.timeZone.offset * 60000

/-- The cached `getUTCFullYear` of the shifted instant. -/
def DateTime.year (dt : DateTime) : Int :=
  (civilFromDays (dt.localMs / 86400000)).1

/-- The cached `getUTCMonth + 1` of the shifted instant (1 = January). -/
def DateTime.month (dt : DateTime) : Int :=
  (civilFromDays (dt.localMs / 86400000)).2.1

/-- The cached `getUTCDate` of the shifted instant. -/
def DateTime.day (dt : DateTime) : Int :=
  (civilFromDays (dt.localMs / 86400000)).2.2

/-- The cached `getUTCDay` of the shifted instant (ECMA-262 `WeekDay(t)`,
0 = Sunday). -/
def DateTime.weekday (dt : DateTime) : Int :=
  (dt.localMs / 86400000 + 4) % 7

/-- The cached `getUTCHours` of the shifted instant. -/
def DateTime.hour (dt : DateTime) : Int :=
  (dt.localMs / 3600000) % 24

/-- The cached `getUTCMinutes` of the shifted instant. -/
def DateTime.minute (dt : DateTime) : Int :=
  (dt.localMs / 60000) % 60

/-- The cached `getUTCSeconds` of the shifted instant. -/
def DateTime.second (dt : DateTime) : Int :=
  (dt.localMs / 1000) % 60

/-- The cached `getUTCMilliseconds` of the shifted instant. -/
def DateTime.ms (dt : DateTime) : Int :=
  dt.localMs % 1000

/-- `withTimeZone`: clone with a different `TimeZone`
(`new DateTime(this.timestamp, timeZone)`). -/
def DateTime.withTimeZone (dt : DateTime) (tz : TimeZone) : DateTime :=
  ⟨dt.timestamp, tz⟩

/-- `withTimestamp`: clone with a different timestamp. -/
def DateTime.withTimestamp (dt : DateTime) (t : Int) : DateTime :=
  ⟨t, dt.timeZone⟩

/-- `fromTimestamp` factory: wrap a timestamp and timezone, no validation. -/
def DateTime.fromTimestamp (t : Int) (tz : TimeZone) : DateTime :=
  ⟨t, tz⟩

/-- `isValidYear`: `0 <= year`. -/
def DateTime.isValidYear (year : Int) : Bool :=
  0 ≤ year

/-- `isValidMonth`: `1 <= month && 12 >= month`. -/
def DateTime.isValidMonth (month : Int) : Bool :=
  1 ≤ month ∧ month ≤ 12

/-- `isValidDay`, translated from the source `switch`: February's bound is 29
in a leap year (divisible by 4 and (not divisible by 100 or divisible by
400), using the JavaScript truncating `%`, i.e. `Int.tmod`) and 28
otherwise; September, April, June and November have 30 days; every other
month value, valid or not, falls to the `default` bound of 31. -/
def DateTime.isValidDay (day month year : Int) : Bool :=
  let max : Int :=
    if month = 2 then
      if year.tmod 4 = 0 ∧ (year.tmod 100 ≠ 0 ∨ year.tmod 400 = 0) then 29 else 28
    else if month = 9 ∨ month = 4 ∨ month = 6 ∨ month = 11 then 30
    else 31
  1 ≤ day ∧ day ≤ max

/-- `isValidHour`: `0 <= hour && 23 >= hour`. -/
def DateTime.isValidHour (hour : Int) : Bool :=
  0 ≤ hour ∧ hour ≤ 23

/-- `isValidMinute`: `0 <= minute && 59 >= minute`. -/
def DateTime.isValidMinute (minute : Int) : Bool :=
  0 ≤ minute ∧ minute ≤ 59

/-- `isValidSecond`: `0 <= second && 59 >= second`. -/
def DateTime.isValidSecond (second : Int) : Bool :=
  0 ≤ second ∧ second ≤ 59

/-- `isValidMs`: `0 <= ms && 999 >= ms`. -/
def DateTime.isValidMs (ms : Int) : Bool :=
  0 ≤ ms ∧ ms ≤ 999

/-- The `DateTimeError` message `Expected valid <field>, found <value>.`. -/
def invalidFieldMsg (field : String) (value : Int) : String :=
  "Expected valid " ++ field ++ ", found " ++ intToString value ++ "."

/-- `DateTime.fromDateTime`, translated from the source: validate the fields
left to right (year, month, day, hour, minute, second, ms), throwing
`DateTimeError` at the first invalid field; then build the timestamp by
writing the fields onto a `Date` via `setUTCFullYear`/`setUTCHours`
(ECMA-262 `MakeDay`/`MakeTime`/`MakeDate`) and subtracting the timezone
offset converted to milliseconds.  Exceptions are embedded as
`Except.error` carrying the message. -/
def DateTime.fromDateTime (year month day hour minute second ms : Int)
    (timeZone : TimeZone) : Except String DateTime :=
  if ¬ DateTime.isValidYear year then .error (invalidFieldMsg "year" year)
  else if ¬ DateTime.isValidMonth month then .error (invalidFieldMsg "month" month)
  else if ¬ DateTime.isValidDay day month year then .error (invalidFieldMsg "day" day)
  else if ¬ DateTime.isValidHour hour then .error (invalidFieldMsg "hour" hour)
  else if ¬ DateTime.isValidMinute minute then .error (invalidFieldMsg "minute" minute)
  else if ¬ DateTime.isValidSecond second then .error (invalidFieldMsg "second" second)
  else if ¬ DateTime.isValidMs ms then .error (invalidFieldMsg "ms" ms)
  else .ok ⟨makeDay year month day * 86400000 + hour * 3600000 + minute * 60000
      + second * 1000 + ms - timeZone.offset * 60000, timeZone⟩

/-- Read exactly `n` decimal digit characters, accumulating their value;
model of a `\d{n}` regex group combined with the `Number.parseInt` applied
to it by `parse`. -/
def readDigits : Nat → Nat → List Char → Option (Nat × List Char)
  | 0, acc, cs => some (acc, cs)
  | n + 1, acc, c :: cs =>
    if isDigitChar c then readDigits n (10 * acc + digitVal c) cs else none
  | _ + 1, _, [] => none

/-- The optional colon `:?` between the offset's hour and minute digits:
consumed exactly when present, since the following `\d{2}` cannot match a
colon. -/
def dropColon (l : List Char) : List Char :=
  match l with
  | ':' :: r => r
  | r => r

/-- The body `\d{2}:?\d{2}` of the offset group after the optional sign,
matched against the whole remaining input (`$` anchors it): on success
returns `full`, the characters of the whole group. -/
def offsetCore (full l : List Char) : Option (List Char) :=
  match readDigits 2 0 l with
  | none => none
  | some (_, rest1) =>
    match readDigits 2 0 (dropColon rest1) with
    | none => none
    | some (_, rest3) => if rest3 = [] then some full else none

/-- Match the trailing timezone-offset group `([+-]?\d{2}:?\d{2})$` of the
`parse` regular expression against the whole remaining input, returning the
matched characters.  The optional sign is deterministic here: when the
leading character is a sign the regex must consume it, since the following
`\d{2}` cannot match it. -/
def matchOffsetEnd (cs : List Char) : Option (List Char) :=
  match cs with
  | '+' :: rest => offsetCore cs rest
  | '-' :: rest => offsetCore cs rest
  | rest => offsetCore cs rest

/-- The optional fraction group `(?:\.(\d{3}))?` of the `parse` regular
expression, committed deterministically: it can match only when a `.`
follows the seconds, and when the fraction attempt fails the regex falls
back to matching the offset group at the current position (the `.`), which
always fails since the offset group cannot begin with `.`.  Returns the
fraction value (`0` when the group is absent, as in the source) and the
remaining characters. -/
def matchFrac (r11 : List Char) : Nat × List Char :=
  match r11 with
  | '.' :: r12 =>
    match readDigits 3 0 r12 with
    | some (f, r13) => (f, r13)
    | none => (0, r11)
  | _ => (0, r11)

/-- Match the whole `parse` regular expression
`^(\d{4})-(\d{2})-(\d{2})T(\d{2}):(\d{2}):(\d{2})(?:\.(\d{3}))?([+-]?\d{2}:?\d{2})$`
against the input, returning the six numeric field values, the millisecond
value (`0` when the optional fraction group is absent, as in the source) and
the characters of the offset group. -/
def matchIso (cs : List Char) :
    Option (Nat × Nat × Nat × Nat × Nat × Nat × Nat × List Char) :=
  match readDigits 4 0 cs with
  | none => none
  | some (y, r1) =>
  match r1 with
  | '-' :: r2 =>
    match readDigits 2 0 r2 with
    | none => none
    | some (mo, r3) =>
    match r3 with
    | '-' :: r4 =>
      match readDigits 2 0 r4 with
      | none => none
      | some (d, r5) =>
      match r5 with
      | 'T' :: r6 =>
        match readDigits 2 0 r6 with
        | none => none
        | some (h, r7) =>
        match r7 with
        | ':' :: r8 =>
          match readDigits 2 0 r8 with
          | none => none
          | some (mi, r9) =>
          match r9 with
          | ':' :: r10 =>
            match readDigits 2 0 r10 with
            | none => none
            | some (s, r11) =>
            let frac : Nat × List Char := matchFrac r11
            match matchOffsetEnd frac.2 with
            | none => none
            | some off => some (y, mo, d, h, mi, s, frac.1, off)
          | _ => none
        | _ => none
      | _ => none
    | _ => none
  | _ => none

/-- `DateTime.parse`: match the fixed ISO-8601 regular expression, throwing
`Expected valid ISO8601 date-time, found "<input>".` when it does not match,
and otherwise hand the parsed values (and the offset group resolved through
the `TimeZone` string constructor) to `fromDateTime`. -/
def DateTime.parse (s : String) : Except String DateTime :=
  match matchIso s.data with
  | none => .error ("Expected valid ISO8601 date-time, found \x22" ++ s ++ "\x22.")
  | some (y, mo, d, h, mi, sec, msv, off) =>
    DateTime.fromDateTime y mo d h mi sec msv (TimeZone.ofString ⟨off⟩)

/-- `DateTimeFormatter.pad`: left-pad the decimal rendering of `value` to
`length` characters with `ch`. -/
def DateTimeFormatter.pad (value : Int) (length : Int) (ch : Char) : String :=
  let str := intToString value
  ⟨List.replicate (length - (str.data.length : Int)).toNat ch ++ str.data⟩

/-- Short English weekday names, indexed by the `Weekday` enumeration
(0 = Sunday).  The source `switch` has no `default`; out-of-range values
(impossible for a constructed `DateTime`) map to the empty string. -/
def weekdayShortName : Int → String
  | 0 => "Sun"
  | 1 => "Mon"
  | 2 => "Tue"
  | 3 => "Wed"
  | 4 => "Thu"
  | 5 => "Fri"
  | 6 => "Sat"
  | _ => ""

/-- Full English weekday names (0 = Sunday), with the same out-of-range
convention as `weekdayShortName`. -/
def weekdayFullName : Int → String
  | 0 => "Sunday"
  | 1 => "Monday"
  | 2 => "Tuesday"
  | 3 => "Wednesday"
  | 4 => "Thursday"
  | 5 => "Friday"
  | 6 => "Saturday"
  | _ => ""

/-- The built-in component formatter registry created by
`createInternalFormatters`, as a partial map from specifier to formatting
function.  Each branch is translated from the corresponding entry of the
source object literal; `args` is `Option String` because the format engine
passes the regex group for the arguments, which may be `undefined`
(`args ?? "4"` is `(args.getD "4")`).  JavaScript `%` on the year is
`Int.tmod`; `Math.abs` is `Int.natAbs`; `Math.floor` of a non-negative
division is `/`. -/
def internalFormatters (name : String) :
    Option (DateTime → Option String → String) :=
  if name = "\x7b" then some (fun _ _ => "\x7b")
  else if name = "Y" then some (fun dt _ => DateTimeFormatter.pad (dt.year.tmod 10000) 4 '0')
  else if name = "y" then some (fun dt _ => DateTimeFormatter.pad (dt.year.tmod 100) 2 '0')
  else if name = "year" then some (fun dt args =>
    let digits := jsParseInt (args.getD "4")
    let year := DateTimeFormatter.pad dt.year digits '0'
    if digits < (year.data.length : Int) then
      ⟨year.data.drop (year.data.length - digits.toNat)⟩
    else year)
  else if name = "M" then some (fun dt _ => DateTimeFormatter.pad dt.month 2 '0')
  else if name = "month" then some (fun dt args =>
    DateTimeFormatter.pad dt.month (jsParseInt (args.getD "1")) '0')
  else if name = "D" then some (fun dt _ => DateTimeFormatter.pad dt.day 2 '0')
  else if name = "day" then some (fun dt args =>
    DateTimeFormatter.pad dt.day (jsParseInt (args.getD "1")) '0')
  else if name = "h" then some (fun dt _ => DateTimeFormatter.pad dt.hour 2 '0')
  else if name = "hour" then some (fun dt args =>
    DateTimeFormatter.pad dt.hour (jsParseInt (args.getD "1")) '0')
  else if name = "m" then some (fun dt _ => DateTimeFormatter.pad dt.minute 2 '0')
  else if name = "minute" then some (fun dt args =>
    DateTimeFormatter.pad dt.minute (jsParseInt (args.getD "1")) '0')
  else if name = "s" then some (fun dt _ => DateTimeFormatter.pad dt.second 2 '0')
  else if name = "second" then some (fun dt args =>
    DateTimeFormatter.pad dt.second (jsParseInt (args.getD "1")) '0')
  else if name = "ms" then some (fun dt args =>
    DateTimeFormatter.pad dt.second (jsParseInt (args.getD "1")) '0')
  else if name = "Z" then some (fun dt _ =>
    (if dt.timeZone.offset < 0 then "-" else "+")
      ++ DateTimeFormatter.pad ((dt.timeZone.offset.natAbs : Int) / 60) 2 '0'
      ++ ":" ++ DateTimeFormatter.pad ((dt.timeZone.offset.natAbs : Int) % 60) 2 '0')
  else if name = "z" then some (fun dt _ =>
    (if dt.timeZone.offset < 0 then "-" else "+")
      ++ DateTimeFormatter.pad ((dt.timeZone.offset.natAbs : Int) / 60) 2 '0'
      ++ DateTimeFormatter.pad ((dt.timeZone.offset.natAbs : Int) % 60) 2 '0')
  else if name = "weekday" then some (fun dt args =>
    if args = some "short" then weekdayShortName dt.weekday else weekdayFullName dt.weekday)
  else none

/-- One step of the `PlaceholderMatcher` regular expression
`\{([^}]+)(?::([^}]+))?}` at a position whose character is `{`: the greedy
`([^}]+)` takes the whole maximal run of non-`}` characters after the `{`
(it can never stop earlier, because every later alternative still needs a
character that only `}` can supply), so the match succeeds exactly when
that run is non-empty and is followed by `}`; the first capture group is
the entire run — including any `:` — and the optional second (arguments)
group always ends up empty.  `placeholderRun` returns the maximal run and
what follows the closing `}`, or `none` when no `}` follows. -/
def placeholderRun (cs : List Char) : Option (List Char × List Char) :=
  let run := cs.takeWhile (fun x => x ≠ '}')
  match cs.dropWhile (fun x => x ≠ '}') with
  | '}' :: rest => some (run, rest)
  | _ => none

/-- The scanning loop of `DateTimeFormatter.format`: repeatedly find the
first `PlaceholderMatcher` match, emit the literal text before it, look the
(whole) captured run up in the registry — throwing
`Undefined component formatter '<run>'.` when absent — append the
formatter's output (invoked with `undefined` arguments, embedded as
`none`), and continue after the match; when no further match exists the
rest of the template is emitted verbatim.  The first argument is fuel,
bounded below by the template length: every recursive call strictly shortens
the character list, so starting the fuel at `length + 1` (as `format` does)
the fuel is never exhausted and the `fuel = 0` branch is unreachable. -/
def formatGo (dt : DateTime) : Nat → List Char → Except String (List Char)
  | 0, _ => .ok []
  | _ + 1, [] => .ok []
  | fuel + 1, c :: cs =>
    if c = '{' then
      match placeholderRun cs with
      | some (run, rest) =>
        if run = [] then (fun out => c :: out) <$> formatGo dt fuel cs
        else
          match internalFormatters ⟨run⟩ with
          | none => .error ("Undefined component formatter \x27" ++ String.mk run ++ "\x27.")
          | some f => (fun out => (f dt none).data ++ out) <$> formatGo dt fuel rest
      | none => (fun out => c :: out) <$> formatGo dt fuel cs
    else (fun out => c :: out) <$> formatGo dt fuel cs

/-- `DateTimeFormatter.format` with the given format string. -/
def DateTimeFormatter.format (fmt : String) (dt : DateTime) : Except String String :=
  (fun l => String.mk l) <$> formatGo dt (fmt.data.length + 1) fmt.data

/-- `DateTimeFormatter.formatStringIso8601`:
`{Y}-{M}-{D}T{h}:{m}:{s}.{ms}{Z}`. -/
def formatStringIso8601 : String :=
  "\x7bY\x7d-\x7bM\x7d-\x7bD\x7dT\x7bh\x7d:\x7bm\x7d:\x7bs\x7d.\x7bms\x7d\x7bZ\x7d"

/-- `DateTime.toISOString`: format with the canonical ISO-8601 template. -/
def DateTime.toISOString (dt : DateTime) : Except String String :=
  DateTimeFormatter.format formatStringIso8601 dt

/-- Month length table as the spec states it (§4.1): `31,28/29,31,30,31,30,
31,31,30,31,30,31`, with February's 29 exactly in spec-leap years (divisible
by 4 and (not divisible by 100 or divisible by 400)). -/
def specMonthLength (month year : Int) : Int :=
  if month = 1 then 31
  else if month = 2 then (if year % 4 = 0 ∧ (year % 100 ≠ 0 ∨ year % 400 = 0) then 29 else 28)
  else if month = 3 then 31
  else if month = 4 then 30
  else if month = 5 then 31
  else if month = 6 then 30
  else if month = 7 then 31
  else if month = 8 then 31
  else if month = 9 then 30
  else if month = 10 then 31
  else if month = 11 then 30
  else 31

/-- A run of exactly `n` decimal digit characters. -/
def DigitRun (n : Nat) (l : List Char) : Prop :=
  l.length = n ∧ ∀ c ∈ l, isDigitChar c = true

/-- The shape of the timezone-offset suffix of the ISO-8601 grammar, as the
spec states it: an optional sign, two hour digits, an optional colon, two
minute digits. -/
def SpecOffsetShape (l : List Char) : Prop :=
  ∃ sign hh col mm, l = sign ++ hh ++ col ++ mm ∧
    (sign = [] ∨ sign = ['+'] ∨ sign = ['-']) ∧ DigitRun 2 hh ∧
    (col = [] ∨ col = [':']) ∧ DigitRun 2 mm

/-- The fixed ISO-8601 grammar of `parse` as the spec states it:
`YYYY-MM-DDTHH:MM:SS[.mmm]±HH:MM` with a 4-digit year, 2-digit month, day,
hour, minute and second, an optional fraction of exactly 3 digits, and a
trailing offset whose sign and colon are optional. -/
def SpecIsoShape (l : List Char) : Prop :=
  ∃ yy mo dd hh mi ss frac off,
    l = yy ++ '-' :: mo ++ '-' :: dd ++ 'T' :: hh ++ ':' :: mi ++ ':' :: ss ++ frac ++ off ∧
    DigitRun 4 yy ∧ DigitRun 2 mo ∧ DigitRun 2 dd ∧ DigitRun 2 hh ∧
    DigitRun 2 mi ∧ DigitRun 2 ss ∧
    (frac = [] ∨ ∃ f3, frac = '.' :: f3 ∧ DigitRun 3 f3) ∧
    SpecOffsetShape off

/-- Cumulative day count at the start of year-of-era `r` (years counted from
1 March of a 400-year era), used to analyse `civilFromDays`. -/
def startI (r : Int) : Int :=
  365 * r + r / 4 - r / 100

/-- The correcting numerator used by `civilFromDays` to recover the
year-of-era. -/
def fI (x : Int) : Int :=
  x - x / 1460 + x / 36524

/-- Length of shifted month `mp` (`0` = March, …, `11` = February, counting
29 for February; the 29th day can only arise from day-of-era 365 of a leap
year-of-era). -/
def mpLen (mp : Int) : Int :=
  if mp = 1 ∨ mp = 3 ∨ mp = 6 ∨ mp = 8 then 30 else if mp = 11 then 29 else 31

set_option maxRecDepth 40000 in
/-- Endpoint bounds for the year-of-era recovery formula, checked for each of
the 400 years of an era. -/
theorem fI_startI_bounds : ∀ rn : Nat, rn < 400 →
    365 * (rn : Int) ≤ fI (startI rn) ∧ fI (startI rn + 364) ≤ 365 * (rn : Int) + 364 ∧
    ((((rn : Int) + 1) % 4 = 0 ∧ (((rn : Int) + 1) % 100 ≠ 0 ∨ (rn : Int) + 1 = 400)) →
      fI (startI rn + 365) ≤ 365 * (rn : Int) + 364 + (startI rn + 365) / 146096) := by
  decide

/-- `fI` is monotone on non-negative arguments. -/
theorem fI_mono (x y : Int) (hx : 0 ≤ x) (h : x ≤ y) : fI x ≤ fI y := by
  simp only [fI]
  have h1 : x - x / 1460 ≤ y - y / 1460 := by omega
  have h2 : x / 36524 ≤ y / 36524 := by omega
  omega

set_option maxHeartbeats 1600000 in
/-- The year-of-era recovery formula of `civilFromDays` returns `r` on every
day-of-era belonging to year-of-era `r`, and each such day-of-era lies in
`0..146096`. -/
theorem yoe_recover (r doy : Int) (hr0 : 0 ≤ r) (hr : r ≤ 399)
    (hd0 : 0 ≤ doy) (hd : doy ≤ 365)
    (hleap : doy ≤ 364 ∨ ((r + 1) % 4 = 0 ∧ ((r + 1) % 100 ≠ 0 ∨ r + 1 = 400))) :
    ((365 * r + r / 4 - r / 100 + doy) - (365 * r + r / 4 - r / 100 + doy) / 1460
      + (365 * r + r / 4 - r / 100 + doy) / 36524
      - (365 * r + r / 4 - r / 100 + doy) / 146096) / 365 = r
    ∧ 0 ≤ 365 * r + r / 4 - r / 100 + doy ∧ 365 * r + r / 4 - r / 100 + doy ≤ 146096 := by
  have hb := fI_startI_bounds r.toNat (by omega)
  have hc : ((r.toNat : Nat) : Int) = r := by omega
  rw [hc] at hb
  simp only [fI, startI] at hb
  have hm1 := fI_mono (365 * r + r / 4 - r / 100) (365 * r + r / 4 - r / 100 + doy)
    (by omega) (by omega)
  simp only [fI] at hm1
  rcases hleap with hle | hlp
  · have hm2 := fI_mono (365 * r + r / 4 - r / 100 + doy) (365 * r + r / 4 - r / 100 + 364)
      (by omega) (by omega)
    simp only [fI] at hm2
    have h1 := hb.1
    have h2 := hb.2.1
    omega
  · have hm2 := fI_mono (365 * r + r / 4 - r / 100 + doy) (365 * r + r / 4 - r / 100 + 365)
      (by omega) (by omega)
    simp only [fI] at hm2
    have h1 := hb.1
    have h3 := hb.2.2 (by omega)
    omega

set_option maxRecDepth 40000 in
/-- `dayFromYear` on the 400 years of the first era, related to the
cumulative era-day count `startI`, split on leap status. -/
theorem dayFromYear_res : ∀ sn : Nat, sn < 400 →
    (((sn : Int) % 4 = 0 ∧ ((sn : Int) % 100 ≠ 0 ∨ (sn : Int) % 400 = 0)) →
      dayFromYear sn + 719528 = 365 * (sn : Int) + (sn : Int) / 4 - (sn : Int) / 100) ∧
    (¬((sn : Int) % 4 = 0 ∧ ((sn : Int) % 100 ≠ 0 ∨ (sn : Int) % 400 = 0)) →
      dayFromYear sn + 719527 = 365 * (sn : Int) + (sn : Int) / 4 - (sn : Int) / 100) := by
  decide

/-- `dayFromYear` shifts by exactly 146097 days across each 400-year era. -/
theorem dayFromYear_pull (k s : Int) :
    dayFromYear (400 * k + s) = 146097 * k + dayFromYear s := by
  have p1 : (400 * k + s - 1969) / 4 = 100 * k + (s - 1969) / 4 := by omega
  have p2 : (400 * k + s - 1901) / 100 = 4 * k + (s - 1901) / 100 := by omega
  have p3 : (400 * k + s - 1601) / 400 = k + (s - 1601) / 400 := by omega
  simp only [dayFromYear]
  omega

/-- `dayFromYear` in era coordinates, split on the leap status of the year. -/
theorem dayFromYear_split (y : Int) :
    (ecmaIsLeapYear y = true →
      dayFromYear y + 719528
        = 146097 * (y / 400) + (365 * (y % 400) + (y % 400) / 4 - (y % 400) / 100)) ∧
    (ecmaIsLeapYear y = false →
      dayFromYear y + 719527
        = 146097 * (y / 400) + (365 * (y % 400) + (y % 400) / 4 - (y % 400) / 100)) := by
  have hpull := dayFromYear_pull (y / 400) (y % 400)
  have hsplit : 400 * (y / 400) + y % 400 = y := by omega
  rw [hsplit] at hpull
  have hres := dayFromYear_res (y % 400).toNat (by omega)
  have hc : (((y % 400).toNat : Nat) : Int) = y % 400 := by omega
  rw [hc] at hres
  constructor
  · intro hL
    simp only [ecmaIsLeapYear, decide_eq_true_eq] at hL
    have h1 := hres.1 (by omega)
    omega
  · intro hL
    simp only [ecmaIsLeapYear, decide_eq_false_iff_not, decide_eq_true_eq] at hL
    have h1 := hres.2 (by omega)
    omega

/-- `makeDay` written in era coordinates: era index and year-of-era of the
March-shifted year, plus the day-of-era offset of the (shifted) month. -/
theorem makeDay_era (y m d : Int) (hy : 0 ≤ y) (hm1 : 1 ≤ m) (hm2 : m ≤ 12) :
    (3 ≤ m → makeDay y m d + 719468 = 146097 * (y / 400)
      + (365 * (y % 400) + (y % 400) / 4 - (y % 400) / 100 + ((153 * (m - 3) + 2) / 5 + d - 1))) ∧
    (m ≤ 2 → makeDay y m d + 719468 = 146097 * ((y - 1) / 400)
      + (365 * ((y - 1) % 400) + ((y - 1) % 400) / 4 - ((y - 1) % 400) / 100
        + ((153 * (m + 9) + 2) / 5 + d - 1))) := by
  obtain ⟨hs1, hs2⟩ := dayFromYear_split y
  constructor
  · intro hm3
    cases hLb : ecmaIsLeapYear y with
    | true =>
      have h1 := hs1 hLb
      simp only [makeDay, daysBeforeMonth, hLb, if_true]
      interval_cases m <;> norm_num <;> omega
    | false =>
      have h1 := hs2 hLb
      simp only [makeDay, daysBeforeMonth, hLb, if_false]
      interval_cases m <;> norm_num <;> omega
  · intro hm2'
    have hLP : ecmaIsLeapYear y = true ↔ (y % 4 = 0 ∧ (y % 100 ≠ 0 ∨ y % 400 = 0)) := by
      simp [ecmaIsLeapYear, decide_eq_true_eq]
    by_cases h400 : y % 400 = 0
    · have hp := dayFromYear_pull (y / 400) 0
      have hy' : 400 * (y / 400) + 0 = y := by omega
      rw [hy'] at hp
      have h0 : dayFromYear 0 = -719528 := by decide
      simp only [makeDay, daysBeforeMonth]
      interval_cases m <;> norm_num <;> omega
    · cases hLb : ecmaIsLeapYear y with
      | true =>
        have h1 := hs1 hLb
        have hLp := hLP.mp hLb
        simp only [makeDay, daysBeforeMonth, hLb, if_true]
        interval_cases m <;> norm_num <;> omega
      | false =>
        have h1 := hs2 hLb
        have hLp : ¬(y % 4 = 0 ∧ (y % 100 ≠ 0 ∨ y % 400 = 0)) := by
          intro hc
          exact absurd (hLP.mpr hc) (by simp [hLb])
        simp only [makeDay, daysBeforeMonth, hLb, if_false]
        interval_cases m <;> norm_num <;> omega

/-- Evaluation of `civilFromDays` on a day number presented in era
coordinates. -/
theorem civilFromDays_eval (z q r doy mp dd : Int)
    (hz : z + 719468 = 146097 * q + (365 * r + r / 4 - r / 100 + doy))
    (hr0 : 0 ≤ r) (hr : r ≤ 399) (hd0 : 0 ≤ doy) (hd : doy ≤ 365)
    (hleap : doy ≤ 364 ∨ ((r + 1) % 4 = 0 ∧ ((r + 1) % 100 ≠ 0 ∨ r + 1 = 400)))
    (hmp : (5 * doy + 2) / 153 = mp)
    (hdd : doy - (153 * mp + 2) / 5 + 1 = dd) :
    civilFromDays z =
      (400 * q + r + (if 306 ≤ doy then 1 else 0),
       (if mp < 10 then mp + 3 else mp - 9), dd) := by
  obtain ⟨hy, hlo, hhi⟩ := yoe_recover r doy hr0 hr hd0 hd hleap
  have e1 : (z + 719468) / 146097 = q := by omega
  have e2 : z + 719468 - (z + 719468) / 146097 * 146097
      = 365 * r + r / 4 - r / 100 + doy := by
    rw [e1]; omega
  simp only [civilFromDays]
  rw [e2, hy, e1]
  have e3 : 365 * r + r / 4 - r / 100 + doy - (365 * r + r / 4 - r / 100) = doy := by omega
  rw [e3, hmp, hdd]
  have hmp0 : 0 ≤ mp ∧ mp ≤ 11 := by omega
  refine Prod.ext ?_ (Prod.ext ?_ ?_) <;> simp only [Prod.fst, Prod.snd] <;>
    first | rfl | (split_ifs <;> omega)

set_option maxHeartbeats 3200000 in
/-- Round trip: decoding the day number built by `makeDay` from a valid
calendar date returns exactly that date. -/
theorem civilFromDays_makeDay (y m d : Int) (hy : 0 ≤ y) (hm1 : 1 ≤ m) (hm2 : m ≤ 12)
    (hd1 : 1 ≤ d) (hd2 : d ≤ specMonthLength m y) :
    civilFromDays (makeDay y m d) = (y, m, d) := by
  have hera := makeDay_era y m d hy hm1 hm2
  have hdlen : d ≤ 31 := by
    have h' := hd2; simp only [specMonthLength] at h'; split_ifs at h' <;> omega
  interval_cases m
  · have hz0 := hera.2 (by omega)
    have hz : makeDay y 1 d + 719468 = 146097 * ((y - 1) / 400)
        + (365 * ((y - 1) % 400) + ((y - 1) % 400) / 4 - ((y - 1) % 400) / 100 + (305 + d)) := by
      omega
    rw [civilFromDays_eval (makeDay y 1 d) ((y - 1) / 400) ((y - 1) % 400) (305 + d) 10 d hz
      (by omega) (by omega) (by omega) (by omega) (by left; omega) (by omega) (by omega)]
    refine Prod.ext ?_ (Prod.ext ?_ ?_) <;> simp only [Prod.fst, Prod.snd] <;> omega
  · have hz0 := hera.2 (by omega)
    have hz : makeDay y 2 d + 719468 = 146097 * ((y - 1) / 400)
        + (365 * ((y - 1) % 400) + ((y - 1) % 400) / 4 - ((y - 1) % 400) / 100 + (336 + d)) := by
      omega
    have hd29 : d ≤ 29 := by
      have h' := hd2; simp only [specMonthLength] at h'; split_ifs at h' <;> omega
    have hlp : 29 ≤ d → (y % 4 = 0 ∧ (y % 100 ≠ 0 ∨ y % 400 = 0)) := by
      intro h29
      have h' := hd2; simp only [specMonthLength] at h'; split_ifs at h' <;>
        first | assumption | omega
    rw [civilFromDays_eval (makeDay y 2 d) ((y - 1) / 400) ((y - 1) % 400) (336 + d) 11 d hz
      (by omega) (by omega) (by omega) (by omega)
      (by rcases Int.lt_or_le d 29 with h29 | h29
          · left; omega
          · have hl := hlp h29; right; omega)
      (by omega) (by omega)]
    refine Prod.ext ?_ (Prod.ext ?_ ?_) <;> simp only [Prod.fst, Prod.snd] <;> omega
  · have hz0 := hera.1 (by omega)
    have hz : makeDay y 3 d + 719468 = 146097 * (y / 400)
        + (365 * (y % 400) + (y % 400) / 4 - (y % 400) / 100 + (d - 1)) := by omega
    rw [civilFromDays_eval (makeDay y 3 d) (y / 400) (y % 400) (d - 1) 0 d hz
      (by omega) (by omega) (by omega) (by omega) (by left; omega) (by omega) (by omega)]
    refine Prod.ext ?_ (Prod.ext ?_ ?_) <;> simp only [Prod.fst, Prod.snd] <;> omega
  · have hz0 := hera.1 (by omega)
    have hd30 : d ≤ 30 := by
      have h' := hd2; simp only [specMonthLength] at h'; split_ifs at h' <;> omega
    have hz : makeDay y 4 d + 719468 = 146097 * (y / 400)
        + (365 * (y % 400) + (y % 400) / 4 - (y % 400) / 100 + (30 + d)) := by omega
    rw [civilFromDays_eval (makeDay y 4 d) (y / 400) (y % 400) (30 + d) 1 d hz
      (by omega) (by omega) (by omega) (by omega) (by left; omega) (by omega) (by omega)]
    refine Prod.ext ?_ (Prod.ext ?_ ?_) <;> simp only [Prod.fst, Prod.snd] <;> omega
  · have hz0 := hera.1 (by omega)
    have hz : makeDay y 5 d + 719468 = 146097 * (y / 400)
        + (365 * (y % 400) + (y % 400) / 4 - (y % 400) / 100 + (60 + d)) := by omega
    rw [civilFromDays_eval (makeDay y 5 d) (y / 400) (y % 400) (60 + d) 2 d hz
      (by omega) (by omega) (by omega) (by omega) (by left; omega) (by omega) (by omega)]
    refine Prod.ext ?_ (Prod.ext ?_ ?_) <;> simp only [Prod.fst, Prod.snd] <;> omega
  · have hz0 := hera.1 (by omega)
    have hd30 : d ≤ 30 := by
      have h' := hd2; simp only [specMonthLength] at h'; split_ifs at h' <;> omega
    have hz : makeDay y 6 d + 719468 = 146097 * (y / 400)
        + (365 * (y % 400) + (y % 400) / 4 - (y % 400) / 100 + (91 + d)) := by omega
    rw [civilFromDays_eval (makeDay y 6 d) (y / 400) (y % 400) (91 + d) 3 d hz
      (by omega) (by omega) (by omega) (by omega) (by left; omega) (by omega) (by omega)]
    refine Prod.ext ?_ (Prod.ext ?_ ?_) <;> simp only [Prod.fst, Prod.snd] <;> omega
  · have hz0 := hera.1 (by omega)
    have hz : makeDay y 7 d + 719468 = 146097 * (y / 400)
        + (365 * (y % 400) + (y % 400) / 4 - (y % 400) / 100 + (121 + d)) := by omega
    rw [civilFromDays_eval (makeDay y 7 d) (y / 400) (y % 400) (121 + d) 4 d hz
      (by omega) (by omega) (by omega) (by omega) (by left; omega) (by omega) (by omega)]
    refine Prod.ext ?_ (Prod.ext ?_ ?_) <;> simp only [Prod.fst, Prod.snd] <;> omega
  · have hz0 := hera.1 (by omega)
    have hz : makeDay y 8 d + 719468 = 146097 * (y / 400)
        + (365 * (y % 400) + (y % 400) / 4 - (y % 400) / 100 + (152 + d)) := by omega
    rw [civilFromDays_eval (makeDay y 8 d) (y / 400) (y % 400) (152 + d) 5 d hz
      (by omega) (by omega) (by omega) (by omega) (by left; omega) (by omega) (by omega)]
    refine Prod.ext ?_ (Prod.ext ?_ ?_) <;> simp only [Prod.fst, Prod.snd] <;> omega
  · have hz0 := hera.1 (by omega)
    have hd30 : d ≤ 30 := by
      have h' := hd2; simp only [specMonthLength] at h'; split_ifs at h' <;> omega
    have hz : makeDay y 9 d + 719468 = 146097 * (y / 400)
        + (365 * (y % 400) + (y % 400) / 4 - (y % 400) / 100 + (183 + d)) := by omega
    rw [civilFromDays_eval (makeDay y 9 d) (y / 400) (y % 400) (183 + d) 6 d hz
      (by omega) (by omega) (by omega) (by omega) (by left; omega) (by omega) (by omega)]
    refine Prod.ext ?_ (Prod.ext ?_ ?_) <;> simp only [Prod.fst, Prod.snd] <;> omega
  · have hz0 := hera.1 (by omega)
    have hz : makeDay y 10 d + 719468 = 146097 * (y / 400)
        + (365 * (y % 400) + (y % 400) / 4 - (y % 400) / 100 + (213 + d)) := by omega
    rw [civilFromDays_eval (makeDay y 10 d) (y / 400) (y % 400) (213 + d) 7 d hz
      (by omega) (by omega) (by omega) (by omega) (by left; omega) (by omega) (by omega)]
    refine Prod.ext ?_ (Prod.ext ?_ ?_) <;> simp only [Prod.fst, Prod.snd] <;> omega
  · have hz0 := hera.1 (by omega)
    have hd30 : d ≤ 30 := by
      have h' := hd2; simp only [specMonthLength] at h'; split_ifs at h' <;> omega
    have hz : makeDay y 11 d + 719468 = 146097 * (y / 400)
        + (365 * (y % 400) + (y % 400) / 4 - (y % 400) / 100 + (244 + d)) := by omega
    rw [civilFromDays_eval (makeDay y 11 d) (y / 400) (y % 400) (244 + d) 8 d hz
      (by omega) (by omega) (by omega) (by omega) (by left; omega) (by omega) (by omega)]
    refine Prod.ext ?_ (Prod.ext ?_ ?_) <;> simp only [Prod.fst, Prod.snd] <;> omega
  · have hz0 := hera.1 (by omega)
    have hz : makeDay y 12 d + 719468 = 146097 * (y / 400)
        + (365 * (y % 400) + (y % 400) / 4 - (y % 400) / 100 + (274 + d)) := by omega
    rw [civilFromDays_eval (makeDay y 12 d) (y / 400) (y % 400) (274 + d) 9 d hz
      (by omega) (by omega) (by omega) (by omega) (by left; omega) (by omega) (by omega)]
    refine Prod.ext ?_ (Prod.ext ?_ ?_) <;> simp only [Prod.fst, Prod.snd] <;> omega

/-- `startI` is monotone on non-negative arguments. -/
theorem startI_mono (a b : Int) (h0 : 0 ≤ a) (h : a ≤ b) : startI a ≤ startI b := by
  simp only [startI]
  omega

/-- Every day-of-era below `startI n` falls in the year-of-era bracket of
some `rn < n`. -/
theorem bracket_exists (n : Nat) : ∀ z : Int, 0 ≤ z → z < startI (n : Int) →
    ∃ rn : Nat, rn < n ∧ startI (rn : Int) ≤ z ∧ z < startI ((rn : Int) + 1) := by
  induction n with
  | zero =>
    intro z hz0 hzlt
    simp only [Nat.cast_zero] at hzlt
    have : startI 0 = 0 := by decide
    omega
  | succ n ih =>
    intro z hz0 hzlt
    have hcast : ((n + 1 : Nat) : Int) = (n : Int) + 1 := by push_cast; ring
    rw [hcast] at hzlt
    by_cases hz : z < startI (n : Int)
    · obtain ⟨rn, hrn, h1, h2⟩ := ih z hz0 hz
      exact ⟨rn, by omega, h1, h2⟩
    · exact ⟨n, by omega, by omega, hzlt⟩

set_option maxRecDepth 40000 in
/-- Shifted-month decomposition of a day-of-year in `0..365`, checked case by
case: the month index is in `0..11`, the day-of-month is in `1..mpLen`, and
the last day-of-year 365 is exactly shifted-February 29. -/
theorem mpd_ball : ∀ dn : Nat, dn < 366 →
    0 ≤ (5 * (dn : Int) + 2) / 153 ∧ (5 * (dn : Int) + 2) / 153 ≤ 11 ∧
    (153 * ((5 * (dn : Int) + 2) / 153) + 2) / 5 ≤ (dn : Int) ∧
    (dn : Int) - (153 * ((5 * (dn : Int) + 2) / 153) + 2) / 5 + 1
      ≤ mpLen ((5 * (dn : Int) + 2) / 153) ∧
    ((dn : Int) = 365 →
      (5 * (dn : Int) + 2) / 153 = 11 ∧
      (dn : Int) - (153 * ((5 * (dn : Int) + 2) / 153) + 2) / 5 + 1 = 29) ∧
    (((5 * (dn : Int) + 2) / 153 = 11 ∧
      (dn : Int) - (153 * ((5 * (dn : Int) + 2) / 153) + 2) / 5 + 1 = 29) → (dn : Int) = 365) := by
  decide

/-- `mpd_ball` restated over an integer day-of-year. -/
theorem mpd_int (doy : Int) (h0 : 0 ≤ doy) (h365 : doy ≤ 365) :
    0 ≤ (5 * doy + 2) / 153 ∧ (5 * doy + 2) / 153 ≤ 11 ∧
    (153 * ((5 * doy + 2) / 153) + 2) / 5 ≤ doy ∧
    doy - (153 * ((5 * doy + 2) / 153) + 2) / 5 + 1 ≤ mpLen ((5 * doy + 2) / 153) ∧
    (doy = 365 →
      (5 * doy + 2) / 153 = 11 ∧ doy - (153 * ((5 * doy + 2) / 153) + 2) / 5 + 1 = 29) ∧
    (((5 * doy + 2) / 153 = 11 ∧ doy - (153 * ((5 * doy + 2) / 153) + 2) / 5 + 1 = 29) →
      doy = 365) := by
  have h := mpd_ball doy.toNat (by omega)
  have hc : ((doy.toNat : Nat) : Int) = doy := by omega
  rw [hc] at h
  exact h

set_option maxHeartbeats 6400000 in
/-- Validity of the calendar fields decoded by `civilFromDays`, for every
integer day number: the month is in `1..12`, the day is within the
spec-stated month length for that month and year, and the decoded year is
non-negative exactly when the day number is on or after 1 January of year
0 (day number `-719528`). -/
theorem civilFromDays_valid (z : Int) :
    1 ≤ (civilFromDays z).2.1 ∧ (civilFromDays z).2.1 ≤ 12 ∧
    1 ≤ (civilFromDays z).2.2 ∧
    (civilFromDays z).2.2 ≤ specMonthLength (civilFromDays z).2.1 (civilFromDays z).1 ∧
    (0 ≤ (civilFromDays z).1 ↔ -719528 ≤ z) := by
  obtain ⟨era, doe, hzd, hdoe0, hdoe1⟩ :
      ∃ e dd : Int, z + 719468 = 146097 * e + dd ∧ 0 ≤ dd ∧ dd ≤ 146096 :=
    ⟨(z + 719468) / 146097, z + 719468 - (z + 719468) / 146097 * 146097, by omega, by omega,
      by omega⟩
  by_cases hend : doe = 146096
  · have hz : z + 719468 = 146097 * era + (365 * 399 + 399 / 4 - 399 / 100 + 365) := by omega
    have heval := civilFromDays_eval z era 399 365 11 29 hz (by omega) (by omega) (by omega)
      (by omega) (by right; omega) (by omega) (by omega)
    rw [heval]
    refine ⟨by norm_num, by norm_num, by norm_num, ?_, ?_⟩
    · simp only [specMonthLength]
      norm_num
      split_ifs with h1 <;> omega
    · norm_num
      omega
  · obtain ⟨rn, hrn, hb1, hb2⟩ := bracket_exists 400 doe (by omega)
      (by simp only [startI]; push_cast; omega)
    simp only [startI] at hb1 hb2
    obtain ⟨r, hrcast⟩ : ∃ r : Int, r = (rn : Int) := ⟨rn, rfl⟩
    rw [← hrcast] at hb1 hb2
    have hr0 : 0 ≤ r := by omega
    have hr399 : r ≤ 399 := by omega
    obtain ⟨doy, hdoyEq⟩ : ∃ d : Int, d = doe - (365 * r + r / 4 - r / 100) :=
      ⟨doe - (365 * r + r / 4 - r / 100), rfl⟩
    have hdoy0 : 0 ≤ doy := by omega
    have hmono := startI_mono (r + 1) 400 (by omega) (by omega)
    simp only [startI] at hmono
    have hdoy365 : doy ≤ 365 := by omega
    have hstep4 : ((r + 1) % 4 = 0 ∧ (r + 1) / 4 = r / 4 + 1) ∨
        ((r + 1) % 4 ≠ 0 ∧ (r + 1) / 4 = r / 4) := by omega
    have hstep100 : ((r + 1) % 100 = 0 ∧ (r + 1) / 100 = r / 100 + 1) ∨
        ((r + 1) % 100 ≠ 0 ∧ (r + 1) / 100 = r / 100) := by omega
    have hleap : doy ≤ 364 ∨ ((r + 1) % 4 = 0 ∧ ((r + 1) % 100 ≠ 0 ∨ r + 1 = 400)) := by
      rcases Int.lt_or_le doy 365 with h | h
      · left; omega
      · right; omega
    have hz : z + 719468 = 146097 * era + (365 * r + r / 4 - r / 100 + doy) := by omega
    obtain ⟨mp, hmpEq⟩ : ∃ v : Int, (5 * doy + 2) / 153 = v := ⟨_, rfl⟩
    obtain ⟨dd, hddEq⟩ : ∃ v : Int, doy - (153 * mp + 2) / 5 + 1 = v := ⟨_, rfl⟩
    have heval := civilFromDays_eval z era r doy mp dd hz hr0 hr399 hdoy0 hdoy365 hleap
      hmpEq hddEq
    rw [heval]
    have hmpd := mpd_int doy hdoy0 hdoy365
    rw [hmpEq] at hmpd
    rw [hddEq] at hmpd
    obtain ⟨hm0, hm11, hdd1, hddlen, h365f, h365b⟩ := hmpd
    refine ⟨?_, ?_, ?_, ?_, ?_⟩
    · dsimp only
      split_ifs <;> omega
    · dsimp only
      split_ifs <;> omega
    · dsimp only
      omega
    · dsimp only
      by_cases h11 : mp = 11
      · subst h11
        norm_num [mpLen] at hddlen ⊢
        by_cases h29 : dd = 29
        · have h365 := h365b ⟨rfl, h29⟩
          have hlf : (r + 1) % 4 = 0 ∧ ((r + 1) % 100 ≠ 0 ∨ r + 1 = 400) := by
            rcases hleap with h | h
            · omega
            · exact h
          simp only [specMonthLength]
          split_ifs <;> omega
        · simp only [specMonthLength]
          split_ifs <;> omega
      · have hm10 : mp ≤ 10 := by omega
        interval_cases mp <;> norm_num [mpLen, specMonthLength] at hddlen ⊢ <;> omega
    · dsimp only
      have hcases : era ≤ -2 ∨ era = -1 ∨ 0 ≤ era := by omega
      constructor <;> intro h
      · rcases hcases with hc | hc | hc <;> split_ifs at h <;> omega
      · rcases hcases with hc | hc | hc <;> split_ifs <;> omega

set_option maxHeartbeats 1600000 in
/-- The source day validator agrees with the spec's month-length table for
non-negative years and months in `1..12`. -/
theorem isValidDay_iff_spec (d mo y : Int) (hy : 0 ≤ y) (hmo1 : 1 ≤ mo) (hmo2 : mo ≤ 12) :
    DateTime.isValidDay d mo y = true ↔ (1 ≤ d ∧ d ≤ specMonthLength mo y) := by
  have ht4 : y.tmod 4 = y % 4 := Int.tmod_eq_emod hy (by norm_num)
  have ht100 : y.tmod 100 = y % 100 := Int.tmod_eq_emod hy (by norm_num)
  have ht400 : y.tmod 400 = y % 400 := Int.tmod_eq_emod hy (by norm_num)
  simp only [DateTime.isValidDay, specMonthLength, ht4, ht100, ht400, decide_eq_true_eq]
  split_ifs <;> omega

/-- On valid fields, `fromDateTime` succeeds with the `MakeDay`/`MakeTime`
timestamp shifted by the timezone offset. -/
theorem fromDateTime_ok (y mo d h mi s ms : Int) (tz : TimeZone) (hy : 0 ≤ y)
    (hmo : 1 ≤ mo ∧ mo ≤ 12) (hd : 1 ≤ d ∧ d ≤ specMonthLength mo y)
    (hh : 0 ≤ h ∧ h ≤ 23) (hmi : 0 ≤ mi ∧ mi ≤ 59) (hs : 0 ≤ s ∧ s ≤ 59)
    (hms : 0 ≤ ms ∧ ms ≤ 999) :
    DateTime.fromDateTime y mo d h mi s ms tz
      = .ok ⟨makeDay y mo d * 86400000 + h * 3600000 + mi * 60000 + s * 1000 + ms
          - tz.offset * 60000, tz⟩ := by
  have v1 : DateTime.isValidYear y = true := by
    simp only [DateTime.isValidYear, decide_eq_true_eq]; omega
  have v2 : DateTime.isValidMonth mo = true := by
    simp only [DateTime.isValidMonth, decide_eq_true_eq]; omega
  have v3 : DateTime.isValidDay d mo y = true := (isValidDay_iff_spec d mo y hy hmo.1 hmo.2).mpr hd
  have v4 : DateTime.isValidHour h = true := by
    simp only [DateTime.isValidHour, decide_eq_true_eq]; omega
  have v5 : DateTime.isValidMinute mi = true := by
    simp only [DateTime.isValidMinute, decide_eq_true_eq]; omega
  have v6 : DateTime.isValidSecond s = true := by
    simp only [DateTime.isValidSecond, decide_eq_true_eq]; omega
  have v7 : DateTime.isValidMs ms = true := by
    simp only [DateTime.isValidMs, decide_eq_true_eq]; omega
  simp [DateTime.fromDateTime, v1, v2, v3, v4, v5, v6, v7]

/-- The calendar fields of a `DateTime` built by `fromDateTime` from valid
fields are exactly the supplied fields, for any timezone. -/
theorem fromDateTime_fields (y mo d h mi s ms : Int) (tz : TimeZone) (hy : 0 ≤ y)
    (hmo : 1 ≤ mo ∧ mo ≤ 12) (hd : 1 ≤ d ∧ d ≤ specMonthLength mo y)
    (hh : 0 ≤ h ∧ h ≤ 23) (hmi : 0 ≤ mi ∧ mi ≤ 59) (hs : 0 ≤ s ∧ s ≤ 59)
    (hms : 0 ≤ ms ∧ ms ≤ 999) :
    ∃ dt : DateTime, DateTime.fromDateTime y mo d h mi s ms tz = .ok dt ∧
      dt.year = y ∧ dt.month = mo ∧ dt.day = d ∧ dt.hour = h ∧ dt.minute = mi ∧
      dt.second = s ∧ dt.ms = ms ∧ dt.timeZone = tz ∧
      dt.timestamp = makeDay y mo d * 86400000 + h * 3600000 + mi * 60000 + s * 1000 + ms
        - tz.offset * 60000 := by
  refine ⟨_, fromDateTime_ok y mo d h mi s ms tz hy hmo hd hh hmi hs hms, ?_⟩
  have hloc : DateTime.localMs ⟨makeDay y mo d * 86400000 + h * 3600000 + mi * 60000
      + s * 1000 + ms - tz.offset * 60000, tz⟩
      = makeDay y mo d * 86400000 + h * 3600000 + mi * 60000 + s * 1000 + ms := by
    simp only [DateTime.localMs]
    omega
  have hdays : (makeDay y mo d * 86400000 + h * 3600000 + mi * 60000 + s * 1000 + ms)
      / 86400000 = makeDay y mo d := by omega
  have hciv := civilFromDays_makeDay y mo d hy hmo.1 hmo.2 hd.1 hd.2
  refine ⟨?_, ?_, ?_, ?_, ?_, ?_, ?_, rfl, rfl⟩
  · simp only [DateTime.year, hloc, hdays, hciv]
  · simp only [DateTime.month, hloc, hdays, hciv]
  · simp only [DateTime.day, hloc, hdays, hciv]
  · simp only [DateTime.hour, hloc]; omega
  · simp only [DateTime.minute, hloc]; omega
  · simp only [DateTime.second, hloc]; omega
  · simp only [DateTime.ms, hloc]; omega

/-- C1: for every tuple of calendar fields with `year ≥ 0`, month in
`1..12`, day valid for that month and year, hour in `0..23`, minute and
second in `0..59` and ms in `0..999`, `DateTime.fromDateTime` with the UTC
timezone succeeds, and the getters `year`, `month`, `day`, `hour`,
`minute`, `second` and `ms` of the resulting instance return exactly the
supplied values. -/
theorem C1_fromDateTime_roundtrip (y mo d h mi s ms : Int) (hy : 0 ≤ y)
    (hmo : 1 ≤ mo ∧ mo ≤ 12) (hd : 1 ≤ d ∧ d ≤ specMonthLength mo y)
    (hh : 0 ≤ h ∧ h ≤ 23) (hmi : 0 ≤ mi ∧ mi ≤ 59) (hs : 0 ≤ s ∧ s ≤ 59)
    (hms : 0 ≤ ms ∧ ms ≤ 999) :
    ∃ dt : DateTime, DateTime.fromDateTime y mo d h mi s ms TimeZone.utc = .ok dt ∧
      dt.year = y ∧ dt.month = mo ∧ dt.day = d ∧ dt.hour = h ∧ dt.minute = mi ∧
      dt.second = s ∧ dt.ms = ms := by
  obtain ⟨dt, hok, h1, h2, h3, h4, h5, h6, h7, _, _⟩ :=
    fromDateTime_fields y mo d h mi s ms TimeZone.utc hy hmo hd hh hmi hs hms
  exact ⟨dt, hok, h1, h2, h3, h4, h5, h6, h7⟩

/-- Witness for C1 at 29 February 2024, 23:59:58.999 UTC. -/
theorem C1_fromDateTime_roundtrip_witness :
    ∃ dt : DateTime, DateTime.fromDateTime 2024 2 29 23 59 58 999 TimeZone.utc = .ok dt ∧
      dt.year = 2024 ∧ dt.month = 2 ∧ dt.day = 29 ∧ dt.hour = 23 ∧ dt.minute = 59 ∧
      dt.second = 58 ∧ dt.ms = 999 :=
  C1_fromDateTime_roundtrip 2024 2 29 23 59 58 999 (by decide) (by decide) (by decide)
    (by decide) (by decide) (by decide) (by decide)

/-- C4: `fromDateTime` validates year, month, day, hour, minute, second, ms
strictly in that order, raising `Expected valid <field>, found <value>.` at
the first invalid field; each error case below holds for arbitrary values
of all later fields, so no later field can influence the outcome.  When all
seven fields are valid no error is raised. -/
theorem C4_fromDateTime_validation_order (y mo d h mi s ms : Int) (tz : TimeZone) :
    (¬ DateTime.isValidYear y = true →
      DateTime.fromDateTime y mo d h mi s ms tz
        = .error ("Expected valid year, found " ++ intToString y ++ ".")) ∧
    (DateTime.isValidYear y = true → ¬ DateTime.isValidMonth mo = true →
      DateTime.fromDateTime y mo d h mi s ms tz
        = .error ("Expected valid month, found " ++ intToString mo ++ ".")) ∧
    (DateTime.isValidYear y = true → DateTime.isValidMonth mo = true →
      ¬ DateTime.isValidDay d mo y = true →
      DateTime.fromDateTime y mo d h mi s ms tz
        = .error ("Expected valid day, found " ++ intToString d ++ ".")) ∧
    (DateTime.isValidYear y = true → DateTime.isValidMonth mo = true →
      DateTime.isValidDay d mo y = true → ¬ DateTime.isValidHour h = true →
      DateTime.fromDateTime y mo d h mi s ms tz
        = .error ("Expected valid hour, found " ++ intToString h ++ ".")) ∧
    (DateTime.isValidYear y = true → DateTime.isValidMonth mo = true →
      DateTime.isValidDay d mo y = true → DateTime.isValidHour h = true →
      ¬ DateTime.isValidMinute mi = true →
      DateTime.fromDateTime y mo d h mi s ms tz
        = .error ("Expected valid minute, found " ++ intToString mi ++ ".")) ∧
    (DateTime.isValidYear y = true → DateTime.isValidMonth mo = true →
      DateTime.isValidDay d mo y = true → DateTime.isValidHour h = true →
      DateTime.isValidMinute mi = true → ¬ DateTime.isValidSecond s = true →
      DateTime.fromDateTime y mo d h mi s ms tz
        = .error ("Expected valid second, found " ++ intToString s ++ ".")) ∧
    (DateTime.isValidYear y = true → DateTime.isValidMonth mo = true →
      DateTime.isValidDay d mo y = true → DateTime.isValidHour h = true →
      DateTime.isValidMinute mi = true → DateTime.isValidSecond s = true →
      ¬ DateTime.isValidMs ms = true →
      DateTime.fromDateTime y mo d h mi s ms tz
        = .error ("Expected valid ms, found " ++ intToString ms ++ ".")) ∧
    (DateTime.isValidYear y = true → DateTime.isValidMonth mo = true →
      DateTime.isValidDay d mo y = true → DateTime.isValidHour h = true →
      DateTime.isValidMinute mi = true → DateTime.isValidSecond s = true →
      DateTime.isValidMs ms = true →
      ∃ dt : DateTime, DateTime.fromDateTime y mo d h mi s ms tz = .ok dt) := by
  refine ⟨?_, ?_, ?_, ?_, ?_, ?_, ?_, ?_⟩
  · intro h1
    simp [DateTime.fromDateTime, invalidFieldMsg, h1]
  · intro h1 h2
    simp [DateTime.fromDateTime, invalidFieldMsg, h1, h2]
  · intro h1 h2 h3
    simp [DateTime.fromDateTime, invalidFieldMsg, h1, h2, h3]
  · intro h1 h2 h3 h4
    simp [DateTime.fromDateTime, invalidFieldMsg, h1, h2, h3, h4]
  · intro h1 h2 h3 h4 h5
    simp [DateTime.fromDateTime, invalidFieldMsg, h1, h2, h3, h4, h5]
  · intro h1 h2 h3 h4 h5 h6
    simp [DateTime.fromDateTime, invalidFieldMsg, h1, h2, h3, h4, h5, h6]
  · intro h1 h2 h3 h4 h5 h6 h7
    simp [DateTime.fromDateTime, invalidFieldMsg, h1, h2, h3, h4, h5, h6, h7]
  · intro h1 h2 h3 h4 h5 h6 h7
    simp [DateTime.fromDateTime, h1, h2, h3, h4, h5, h6, h7]

/-- Witness for C4: the month error fires even though day, hour, minute,
second and ms are also invalid. -/
theorem C4_fromDateTime_validation_order_witness :
    DateTime.fromDateTime 2024 13 32 99 99 99 9999 TimeZone.utc
      = .error "Expected valid month, found 13." := by
  have h := (C4_fromDateTime_validation_order 2024 13 32 99 99 99 9999 TimeZone.utc).2.1
    (by decide) (by decide)
  exact h.trans (by rfl)

/-- C5: the day validation accepts exactly the days from 1 up to the
spec month-length table (31/30 per month, February 28 or 29 by the
leap-year rule); in particular 29 February 1971 is rejected with the
verbatim day error and 29 February 1972 is accepted. -/
theorem C5_isValidDay_monthLength :
    (∀ y mo d : Int, 0 ≤ y → 1 ≤ mo → mo ≤ 12 →
      (DateTime.isValidDay d mo y = true ↔ (1 ≤ d ∧ d ≤ specMonthLength mo y))) ∧
    DateTime.fromDateTime 1971 2 29 0 0 0 0 TimeZone.utc
      = .error "Expected valid day, found 29." ∧
    DateTime.fromDateTime 1972 2 29 0 0 0 0 TimeZone.utc = .ok ⟨68169600000, TimeZone.utc⟩ := by
  refine ⟨fun y mo d hy h1 h2 => isValidDay_iff_spec d mo y hy h1 h2, by rfl, by rfl⟩

/-- Witness for C5: 31 is a valid day for January but not for April. -/
theorem C5_isValidDay_monthLength_witness :
    (DateTime.isValidDay 31 1 1970 = true ↔ (1 ≤ (31 : Int) ∧ (31 : Int) ≤ specMonthLength 1 1970))
    ∧ (DateTime.isValidDay 31 4 1970 = true
        ↔ (1 ≤ (31 : Int) ∧ (31 : Int) ≤ specMonthLength 4 1970)) :=
  ⟨C5_isValidDay_monthLength.1 1970 1 31 (by decide) (by decide) (by decide),
   C5_isValidDay_monthLength.1 1970 4 31 (by decide) (by decide) (by decide)⟩

/-- C6: for valid fields and any timezone, the timestamp stored by
`fromDateTime` is the timestamp of the same fields interpreted in UTC minus
`offset * 60000` milliseconds; in particular the epoch fields with the
default ms and timezone produce timestamp 0. -/
theorem C6_fromDateTime_offset (y mo d h mi s ms : Int) (tz : TimeZone) (hy : 0 ≤ y)
    (hmo : 1 ≤ mo ∧ mo ≤ 12) (hd : 1 ≤ d ∧ d ≤ specMonthLength mo y)
    (hh : 0 ≤ h ∧ h ≤ 23) (hmi : 0 ≤ mi ∧ mi ≤ 59) (hs : 0 ≤ s ∧ s ≤ 59)
    (hms : 0 ≤ ms ∧ ms ≤ 999) :
    (∃ dt dtU : DateTime, DateTime.fromDateTime y mo d h mi s ms tz = .ok dt ∧
      DateTime.fromDateTime y mo d h mi s ms TimeZone.utc = .ok dtU ∧
      dt.timestamp = dtU.timestamp - tz.offset * 60000) ∧
    DateTime.fromDateTime 1970 1 1 0 0 0 0 TimeZone.utc = .ok ⟨0, TimeZone.utc⟩ := by
  refine ⟨⟨_, _, fromDateTime_ok y mo d h mi s ms tz hy hmo hd hh hmi hs hms,
    fromDateTime_ok y mo d h mi s ms TimeZone.utc hy hmo hd hh hmi hs hms, ?_⟩, by rfl⟩
  simp only [TimeZone.utc]
  omega

/-- Witness for C6 at 15 June 2020, 12:30:45.500 in a UTC-5 timezone. -/
theorem C6_fromDateTime_offset_witness :
    (∃ dt dtU : DateTime, DateTime.fromDateTime 2020 6 15 12 30 45 500 ⟨-300⟩ = .ok dt ∧
      DateTime.fromDateTime 2020 6 15 12 30 45 500 TimeZone.utc = .ok dtU ∧
      dt.timestamp = dtU.timestamp - (-300 : Int) * 60000) ∧
    DateTime.fromDateTime 1970 1 1 0 0 0 0 TimeZone.utc = .ok ⟨0, TimeZone.utc⟩ :=
  C6_fromDateTime_offset 2020 6 15 12 30 45 500 ⟨-300⟩ (by decide) (by decide) (by decide)
    (by decide) (by decide) (by decide) (by decide)

/-- C10: `withTimeZone` returns a new instance with the same timestamp and
the new timezone; because offsets are whole minutes, the `second` and `ms`
fields are unchanged.  Every `DateTime` is the immutable pair of its
timestamp and timezone, so the receiver (`fromTimestamp t tz`) is the
unchanged value `⟨t, tz⟩`. -/
theorem C10_withTimeZone_frame (t : Int) (tz tz2 : TimeZone) :
    (DateTime.withTimeZone (DateTime.fromTimestamp t tz) tz2).timestamp
      = (DateTime.fromTimestamp t tz).timestamp ∧
    (DateTime.withTimeZone (DateTime.fromTimestamp t tz) tz2).timeZone = tz2 ∧
    (DateTime.withTimeZone (DateTime.fromTimestamp t tz) tz2).second
      = (DateTime.fromTimestamp t tz).second ∧
    (DateTime.withTimeZone (DateTime.fromTimestamp t tz) tz2).ms
      = (DateTime.fromTimestamp t tz).ms ∧
    DateTime.fromTimestamp t tz = ⟨t, tz⟩ := by
  refine ⟨rfl, rfl, ?_, ?_, rfl⟩
  · simp only [DateTime.second, DateTime.localMs, DateTime.withTimeZone, DateTime.fromTimestamp]
    omega
  · simp only [DateTime.ms, DateTime.localMs, DateTime.withTimeZone, DateTime.fromTimestamp]
    omega

set_option maxHeartbeats 1600000 in
/-- C9 (amended): for every signed integer timestamp and every timezone,
the derived fields of `fromTimestamp` satisfy month in `1..12`, day in
`1..last-day-of-month`, weekday in `0..6`, hour in `0..23`, minute and
second in `0..59` and millisecond in `0..999`; the derived year is
non-negative exactly when the offset-shifted instant is at or after
1 January of year 0 (shifted timestamp `≥ -62167219200000`), so `year ≥ 0`
does not hold for arbitrary negative timestamps. -/
theorem C9_fromTimestamp_field_ranges (t : Int) (tz : TimeZone) :
    1 ≤ (DateTime.fromTimestamp t tz).month ∧ (DateTime.fromTimestamp t tz).month ≤ 12 ∧
    1 ≤ (DateTime.fromTimestamp t tz).day ∧
    (DateTime.fromTimestamp t tz).day
      ≤ specMonthLength (DateTime.fromTimestamp t tz).month (DateTime.fromTimestamp t tz).year ∧
    0 ≤ (DateTime.fromTimestamp t tz).weekday ∧ (DateTime.fromTimestamp t tz).weekday ≤ 6 ∧
    0 ≤ (DateTime.fromTimestamp t tz).hour ∧ (DateTime.fromTimestamp t tz).hour ≤ 23 ∧
    0 ≤ (DateTime.fromTimestamp t tz).minute ∧ (DateTime.fromTimestamp t tz).minute ≤ 59 ∧
    0 ≤ (DateTime.fromTimestamp t tz).second ∧ (DateTime.fromTimestamp t tz).second ≤ 59 ∧
    0 ≤ (DateTime.fromTimestamp t tz).ms ∧ (DateTime.fromTimestamp t tz).ms ≤ 999 ∧
    (0 ≤ (DateTime.fromTimestamp t tz).year ↔ -62167219200000 ≤ t + tz.offset * 60000) := by
  have hciv := civilFromDays_valid ((t + tz.offset * 60000) / 86400000)
  obtain ⟨hc1, hc2, hc3, hc4, hc5⟩ := hciv
  simp only [DateTime.fromTimestamp, DateTime.year, DateTime.month, DateTime.day,
    DateTime.weekday, DateTime.hour, DateTime.minute, DateTime.second, DateTime.ms,
    DateTime.localMs] at hc1 hc2 hc3 hc4 hc5 ⊢
  refine ⟨hc1, hc2, hc3, hc4, by omega, by omega, by omega, by omega, by omega, by omega,
    by omega, by omega, by omega, by omega, ?_⟩
  rw [hc5]
  omega

theorem digitOf_digit : ∀ dn : Nat, dn < 10 → isDigitChar (digitOf dn) = true := by decide

theorem natDigits_spec : ∀ fuel n : Nat, n < fuel →
    (∀ c ∈ natDigits fuel n, isDigitChar c = true) ∧ natDigits fuel n ≠ [] ∧
    (∀ k : Nat, 1 ≤ k → n < 10 ^ k → (natDigits fuel n).length ≤ k) := by
  intro fuel
  induction fuel with
  | zero => intro n h; omega
  | succ fuel ih =>
    intro n h
    by_cases h10 : n < 10
    · simp only [natDigits, if_pos h10]
      refine ⟨?_, by simp, ?_⟩
      · intro c hc
        simp only [List.mem_singleton] at hc
        subst hc
        exact digitOf_digit n h10
      · intro k hk1 hk
        simp only [List.length_singleton]
        omega
    · simp only [natDigits, if_neg h10]
      have hlt : n / 10 < fuel := by omega
      obtain ⟨ihd, ihne, ihlen⟩ := ih (n / 10) hlt
      refine ⟨?_, by simp, ?_⟩
      · intro c hc
        simp only [List.mem_append, List.mem_singleton] at hc
        rcases hc with hc | hc
        · exact ihd c hc
        · subst hc
          exact digitOf_digit (n % 10) (by omega)
      · intro k hk1 hk
        have hk2 : 2 ≤ k := by
          by_contra hk0
          have hk1' : k = 1 := by omega
          subst hk1'
          simp at hk
          omega
        have hdiv : n / 10 < 10 ^ (k - 1) := by
          have h1 : 10 ^ k = 10 ^ (k - 1) * 10 := by
            rw [← pow_succ]
            congr 1
            omega
          omega
        have := ihlen (k - 1) (by omega) hdiv
        simp only [List.length_append, List.length_singleton]
        omega

theorem pad_digit_chars (v : Int) (k : Nat) (hk1 : 1 ≤ k) (h0 : 0 ≤ v) (hk : v < 10 ^ k) :
    (DateTimeFormatter.pad v (k : Int) '0').data.length = k ∧
    ∀ c ∈ (DateTimeFormatter.pad v (k : Int) '0').data, isDigitChar c = true := by
  have hnat : v.natAbs < 10 ^ k := by
    have : ((10 : Nat) ^ k : Int) = (10 : Int) ^ k := by push_cast; ring
    omega
  obtain ⟨hdig, hne, hlen⟩ := natDigits_spec (v.natAbs + 1) v.natAbs (by omega)
  have hlenk := hlen k hk1 hnat
  simp only [DateTimeFormatter.pad, intToString, if_neg (by omega : ¬ v < 0), natToString]
  constructor
  · simp only [List.length_append, List.length_replicate]
    have h1 : 1 ≤ (natDigits (v.natAbs + 1) v.natAbs).length := by
      cases hq : natDigits (v.natAbs + 1) v.natAbs with
      | nil => exact absurd hq hne
      | cons a l => simp
    omega
  · intro c hc
    simp only [List.mem_append, List.mem_replicate] at hc
    rcases hc with ⟨_, hc⟩ | hc
    · subst hc; decide
    · exact hdig c hc

theorem pad_one_data (v : Int) (h0 : 0 ≤ v) :
    (DateTimeFormatter.pad v 1 '0').data = natDigits (v.natAbs + 1) v.natAbs := by
  obtain ⟨hdig, hne, hlen⟩ := natDigits_spec (v.natAbs + 1) v.natAbs (by omega)
  simp only [DateTimeFormatter.pad, intToString, if_neg (by omega : ¬ v < 0), natToString]
  have h1 : 1 ≤ (natDigits (v.natAbs + 1) v.natAbs).length := by
    cases hq : natDigits (v.natAbs + 1) v.natAbs with
    | nil => exact absurd hq hne
    | cons a l => simp
  have : ((1 : Int) - (natDigits (v.natAbs + 1) v.natAbs).length).toNat = 0 := by omega
  rw [this]
  simp

theorem readDigits_append : ∀ (ds : List Char) (rest : List Char) (acc : Nat),
    (∀ c ∈ ds, isDigitChar c = true) →
    ∃ v, readDigits ds.length acc (ds ++ rest) = some (v, rest) := by
  intro ds
  induction ds with
  | nil => intro rest acc _; exact ⟨acc, rfl⟩
  | cons c cs ih =>
    intro rest acc hd
    have hc : isDigitChar c = true := hd c (by simp)
    obtain ⟨v, hv⟩ := ih rest (10 * acc + digitVal c) (fun x hx => hd x (by simp [hx]))
    exact ⟨v, by simp only [List.length_cons, List.cons_append, readDigits, hc, if_pos]; exact hv⟩

theorem readDigits_run (n : Nat) (ds rest : List Char) (h : DigitRun n ds) :
    ∃ v, readDigits n 0 (ds ++ rest) = some (v, rest) := by
  obtain ⟨hl, hdig⟩ := h
  subst hl
  exact readDigits_append ds rest 0 hdig

theorem readDigits3_fail (g l : List Char) (hglen : g.length = 1 ∨ g.length = 2) :
    readDigits 3 0 (g ++ '+' :: l) = none := by
  rcases g with _ | ⟨x, _ | ⟨y, _ | ⟨z, zs⟩⟩⟩
  · simp only [List.length_nil] at hglen; omega
  · simp only [List.cons_append, List.nil_append, readDigits]
    by_cases hx : isDigitChar x
    · rw [if_pos hx]; rfl
    · rw [if_neg hx]
  · simp only [List.cons_append, List.nil_append, readDigits]
    by_cases hx : isDigitChar x
    · rw [if_pos hx]
      by_cases hy : isDigitChar y
      · rw [if_pos hy]; rfl
      · rw [if_neg hy]
    · rw [if_neg hx]
  · simp only [List.length_cons] at hglen; omega

theorem matchOffsetEnd_dot (l : List Char) : matchOffsetEnd ('.' :: l) = none := rfl

theorem matchIso_shortFrac_none (a b c d e f g l : List Char)
    (ha : DigitRun 4 a) (hb : DigitRun 2 b) (hc : DigitRun 2 c)
    (hd : DigitRun 2 d) (he : DigitRun 2 e) (hf : DigitRun 2 f)
    (hglen : g.length = 1 ∨ g.length = 2) :
    matchIso (a ++ '-' :: (b ++ '-' :: (c ++ 'T' :: (d ++ ':' :: (e ++ ':' :: (f ++ '.' :: (g ++ '+' :: l))))))) = none := by
  obtain ⟨v1, h1⟩ := readDigits_run 4 a ('-' :: (b ++ '-' :: (c ++ 'T' :: (d ++ ':' :: (e ++ ':' :: (f ++ '.' :: (g ++ '+' :: l))))))) ha
  obtain ⟨v2, h2⟩ := readDigits_run 2 b ('-' :: (c ++ 'T' :: (d ++ ':' :: (e ++ ':' :: (f ++ '.' :: (g ++ '+' :: l)))))) hb
  obtain ⟨v3, h3⟩ := readDigits_run 2 c ('T' :: (d ++ ':' :: (e ++ ':' :: (f ++ '.' :: (g ++ '+' :: l))))) hc
  obtain ⟨v4, h4⟩ := readDigits_run 2 d (':' :: (e ++ ':' :: (f ++ '.' :: (g ++ '+' :: l)))) hd
  obtain ⟨v5, h5⟩ := readDigits_run 2 e (':' :: (f ++ '.' :: (g ++ '+' :: l))) he
  obtain ⟨v6, h6⟩ := readDigits_run 2 f ('.' :: (g ++ '+' :: l)) hf
  simp only [matchIso, matchFrac, h1, h2, h3, h4, h5, h6, readDigits3_fail g l hglen,
    matchOffsetEnd_dot]

theorem isoClosed (dt : DateTime) :
    DateTime.toISOString dt = .ok (String.mk ((DateTimeFormatter.pad (dt.year.tmod 10000) 4 '0').data ++ ('-' :: ((DateTimeFormatter.pad dt.month 2 '0').data ++ ('-' :: ((DateTimeFormatter.pad dt.day 2 '0').data ++ ('T' :: ((DateTimeFormatter.pad dt.hour 2 '0').data ++ (':' :: ((DateTimeFormatter.pad dt.minute 2 '0').data ++ (':' :: ((DateTimeFormatter.pad dt.second 2 '0').data ++ ('.' :: ((DateTimeFormatter.pad dt.second 1 '0').data ++ (((if dt.timeZone.offset < 0 then "-" else "+") ++ DateTimeFormatter.pad ((dt.timeZone.offset.natAbs : Int) / 60) 2 '0' ++ ":" ++ DateTimeFormatter.pad ((dt.timeZone.offset.natAbs : Int) % 60) 2 '0').data ++ []))))))))))))))) := by
  rfl

theorem parse_of_matchIso_none (e : String) (h : matchIso e.data = none) :
    DateTime.parse e = .error ("Expected valid ISO8601 date-time, found \x22" ++ e ++ "\x22.") := by
  simp only [DateTime.parse, h]

theorem parse_toISO_error (dt : DateTime) (htz : dt.timeZone = TimeZone.utc)
    (hy : 0 ≤ dt.year) (hmo : 0 ≤ dt.month ∧ dt.month ≤ 99)
    (hda : 0 ≤ dt.day ∧ dt.day ≤ 99) (hho : 0 ≤ dt.hour ∧ dt.hour ≤ 99)
    (hmi : 0 ≤ dt.minute ∧ dt.minute ≤ 99) (hse : 0 ≤ dt.second ∧ dt.second ≤ 99) :
    ∃ e, DateTime.toISOString dt = .ok e ∧
      DateTime.parse e = .error ("Expected valid ISO8601 date-time, found \x22" ++ e ++ "\x22.") := by
  have hiso := isoClosed dt
  rw [htz] at hiso
  have h100 : (10 : Int) ^ 2 = 100 := by norm_num
  have hymod : 0 ≤ dt.year.tmod 10000 ∧ dt.year.tmod 10000 < 10000 := by
    rw [Int.tmod_eq_emod hy (by norm_num)]
    omega
  have ha : DigitRun 4 (DateTimeFormatter.pad (dt.year.tmod 10000) 4 '0').data :=
    pad_digit_chars _ 4 (by norm_num) hymod.1
      (by have h4 : (10 : Int) ^ 4 = 10000 := by norm_num
          rw [h4]; exact hymod.2)
  have hb : DigitRun 2 (DateTimeFormatter.pad dt.month 2 '0').data :=
    pad_digit_chars _ 2 (by norm_num) hmo.1 (by rw [h100]; omega)
  have hc : DigitRun 2 (DateTimeFormatter.pad dt.day 2 '0').data :=
    pad_digit_chars _ 2 (by norm_num) hda.1 (by rw [h100]; omega)
  have hd : DigitRun 2 (DateTimeFormatter.pad dt.hour 2 '0').data :=
    pad_digit_chars _ 2 (by norm_num) hho.1 (by rw [h100]; omega)
  have he : DigitRun 2 (DateTimeFormatter.pad dt.minute 2 '0').data :=
    pad_digit_chars _ 2 (by norm_num) hmi.1 (by rw [h100]; omega)
  have hf : DigitRun 2 (DateTimeFormatter.pad dt.second 2 '0').data :=
    pad_digit_chars _ 2 (by norm_num) hse.1 (by rw [h100]; omega)
  have hgdata : (DateTimeFormatter.pad dt.second 1 '0').data
      = natDigits (dt.second.natAbs + 1) dt.second.natAbs :=
    pad_one_data dt.second hse.1
  obtain ⟨hgdig, hgne, hglenb⟩ :=
    natDigits_spec (dt.second.natAbs + 1) dt.second.natAbs (by omega)
  have hg2 : (natDigits (dt.second.natAbs + 1) dt.second.natAbs).length ≤ 2 := by
    apply hglenb 2 (by norm_num)
    have h100n : (10 : Nat) ^ 2 = 100 := by norm_num
    rw [h100n]
    omega
  have hglen : (DateTimeFormatter.pad dt.second 1 '0').data.length = 1 ∨
      (DateTimeFormatter.pad dt.second 1 '0').data.length = 2 := by
    rw [hgdata]
    have hpos : 0 < (natDigits (dt.second.natAbs + 1) dt.second.natAbs).length :=
      List.length_pos.mpr hgne
    omega
  refine ⟨_, hiso, ?_⟩
  apply parse_of_matchIso_none
  exact matchIso_shortFrac_none _ _ _ _ _ _ _ _ ha hb hc hd he hf hglen

theorem isDigitChar_ne (c : Char) (h : isDigitChar c = true) :
    c ≠ '+' ∧ c ≠ '-' ∧ c ≠ ':' ∧ c ≠ '.' ∧ c ≠ 'T' := by
  refine ⟨?_, ?_, ?_, ?_, ?_⟩ <;> rintro rfl <;> exact absurd h (by decide)

theorem readDigits_some : ∀ (n acc : Nat) (cs : List Char) (v : Nat) (rest : List Char),
    readDigits n acc cs = some (v, rest) →
    ∃ ds, cs = ds ++ rest ∧ ds.length = n ∧ ∀ c ∈ ds, isDigitChar c = true := by
  intro n
  induction n with
  | zero =>
    intro acc cs v rest h
    simp only [readDigits, Option.some.injEq, Prod.mk.injEq] at h
    exact ⟨[], by simp [h.2], rfl, by simp⟩
  | succ n ih =>
    intro acc cs v rest h
    cases cs with
    | nil => simp [readDigits] at h
    | cons c cs2 =>
      simp only [readDigits] at h
      by_cases hc : isDigitChar c
      · rw [if_pos hc] at h
        obtain ⟨ds, hds, hlen, hdig⟩ := ih _ cs2 v rest h
        refine ⟨c :: ds, by simp [hds], by simp [hlen], ?_⟩
        intro x hx
        rcases List.mem_cons.mp hx with hx | hx
        · subst hx; exact hc
        · exact hdig x hx
      · rw [if_neg hc] at h
        exact absurd h (by simp)

theorem dropColon_colon (r : List Char) : dropColon (':' :: r) = r := rfl

theorem dropColon_other (l : List Char) (h : ∀ r, l ≠ ':' :: r) : dropColon l = l := by
  unfold dropColon
  split
  · rename_i r
    exact absurd rfl (h r)
  · rfl

theorem offsetCore_shape (full l x : List Char) (h : offsetCore full l = some x) :
    x = full ∧ ∃ hh col mm, l = hh ++ (col ++ mm) ∧ DigitRun 2 hh ∧
      (col = [] ∨ col = [':']) ∧ DigitRun 2 mm := by
  unfold offsetCore at h
  split at h
  · exact absurd h (by simp)
  · rename_i v1 rest1 heq1
    split at h
    · exact absurd h (by simp)
    · rename_i v2 rest3 heq2
      split at h
      · rename_i hrest3
        obtain ⟨hh, hl, hhlen, hhdig⟩ := readDigits_some 2 0 l v1 rest1 heq1
        obtain ⟨mm, hm, hmlen, hmdig⟩ := readDigits_some 2 0 (dropColon rest1) v2 rest3 heq2
        subst hrest3
        rw [List.append_nil] at hm
        simp only [Option.some.injEq] at h
        refine ⟨h.symm, hh, ?_⟩
        cases rest1 with
        | nil =>
          refine ⟨[], mm, ?_, ⟨hhlen, hhdig⟩, .inl rfl, ⟨hmlen, hmdig⟩⟩
          simp only [List.nil_append]
          rw [hl]
          have : mm = [] := by rw [← hm]; rfl
          simp [this]
        | cons c r =>
          by_cases hc : c = ':'
          · subst hc
            rw [dropColon_colon] at hm
            subst hm
            exact ⟨[':'], r, by simp [hl], ⟨hhlen, hhdig⟩, .inr rfl, ⟨hmlen, hmdig⟩⟩
          · rw [dropColon_other (c :: r)
              (by intro r2 hcr; injection hcr with h1 _; exact hc h1)] at hm
            subst hm
            exact ⟨[], c :: r, by simp [hl], ⟨hhlen, hhdig⟩, .inl rfl, ⟨hmlen, hmdig⟩⟩
      · exact absurd h (by simp)

theorem offsetCore_complete (full hh col mm : List Char) (hhh : DigitRun 2 hh)
    (hcol : col = [] ∨ col = [':']) (hmm : DigitRun 2 mm) :
    offsetCore full (hh ++ (col ++ mm)) = some full := by
  obtain ⟨v1, h1⟩ := readDigits_run 2 hh (col ++ mm) hhh
  have hdropped : dropColon (col ++ mm) = mm := by
    rcases hcol with rfl | rfl
    · rw [List.nil_append]
      obtain ⟨hmlen, hmdig⟩ := hmm
      obtain ⟨m1, m2, rfl⟩ := List.length_eq_two.mp hmlen
      apply dropColon_other
      intro r2 hr
      cases hr
      exact absurd (hmdig ':' (by simp)) (by decide)
    · rfl
  obtain ⟨v2, h2⟩ := readDigits_run 2 mm [] hmm
  rw [List.append_nil] at h2
  simp [offsetCore, h1, hdropped, h2]

theorem matchOffsetEnd_shape (l x : List Char) (h : matchOffsetEnd l = some x) :
    x = l ∧ SpecOffsetShape l := by
  unfold matchOffsetEnd at h
  split at h
  · rename_i rest
    obtain ⟨hx, hh, col, mm, hdec, hhh, hcol, hmm⟩ := offsetCore_shape _ _ _ h
    exact ⟨hx, ['+'], hh, col, mm, by simp [hdec], .inr (.inl rfl), hhh, hcol, hmm⟩
  · rename_i rest
    obtain ⟨hx, hh, col, mm, hdec, hhh, hcol, hmm⟩ := offsetCore_shape _ _ _ h
    exact ⟨hx, ['-'], hh, col, mm, by simp [hdec], .inr (.inr rfl), hhh, hcol, hmm⟩
  · obtain ⟨hx, hh, col, mm, hdec, hhh, hcol, hmm⟩ := offsetCore_shape _ _ _ h
    exact ⟨hx, [], hh, col, mm, by simp [hdec], .inl rfl, hhh, hcol, hmm⟩

theorem matchOffsetEnd_complete (l : List Char) (h : SpecOffsetShape l) :
    matchOffsetEnd l = some l := by
  obtain ⟨sign, hh, col, mm, hdec, hsign, hhh, hcol, hmm⟩ := h
  subst hdec
  rcases hsign with rfl | rfl | rfl
  · simp only [List.nil_append]
    obtain ⟨hhlen, hhdig⟩ := hhh
    obtain ⟨c1, c2, rfl⟩ := List.length_eq_two.mp hhlen
    have hne := isDigitChar_ne c1 (hhdig c1 (by simp))
    simp only [List.cons_append]
    unfold matchOffsetEnd
    split
    · rename_i rest heq
      cases heq
      exact absurd rfl hne.1
    · rename_i rest heq
      cases heq
      exact absurd rfl hne.2.1
    · exact offsetCore_complete _ [c1, c2] col mm ⟨hhlen, hhdig⟩ hcol hmm
  · simp only [List.cons_append, List.nil_append, List.append_assoc]
    have hred : matchOffsetEnd ('+' :: (hh ++ (col ++ mm)))
        = offsetCore ('+' :: (hh ++ (col ++ mm))) (hh ++ (col ++ mm)) := rfl
    rw [hred]
    exact offsetCore_complete _ hh col mm hhh hcol hmm
  · simp only [List.cons_append, List.nil_append, List.append_assoc]
    have hred : matchOffsetEnd ('-' :: (hh ++ (col ++ mm)))
        = offsetCore ('-' :: (hh ++ (col ++ mm))) (hh ++ (col ++ mm)) := rfl
    rw [hred]
    exact offsetCore_complete _ hh col mm hhh hcol hmm

theorem matchFrac_dot_run (f3 r13 : List Char) (hf : DigitRun 3 f3) :
    ∃ v, matchFrac ('.' :: (f3 ++ r13)) = (v, r13) := by
  obtain ⟨v, hv⟩ := readDigits_run 3 f3 r13 hf
  exact ⟨v, by simp [matchFrac, hv]⟩

theorem matchFrac_nodot (l : List Char) (h : ∀ r, l ≠ '.' :: r) : matchFrac l = (0, l) := by
  unfold matchFrac
  split
  · rename_i r12
    exact absurd rfl (h r12)
  · rfl

theorem matchFrac_inv (r11 : List Char) (fv : Nat) (r12 : List Char)
    (h : matchFrac r11 = (fv, r12)) :
    (r12 = r11 ∧ fv = 0) ∨ ∃ f3, r11 = '.' :: (f3 ++ r12) ∧ DigitRun 3 f3 := by
  unfold matchFrac at h
  split at h
  · rename_i r12p
    split at h
    · rename_i fvp r13 heq3
      obtain ⟨f3, hdec, hlen, hdig⟩ := readDigits_some 3 0 r12p fvp r13 heq3
      cases h
      exact .inr ⟨f3, by rw [hdec], ⟨hlen, hdig⟩⟩
    · cases h
      exact .inl ⟨rfl, rfl⟩
  · cases h
    exact .inl ⟨rfl, rfl⟩

theorem SpecOffsetShape_not_dot (l : List Char) (h : SpecOffsetShape l) :
    ∀ r, l ≠ '.' :: r := by
  obtain ⟨sign, hh, col, mm, hdec, hsign, hhh, hcol, hmm⟩ := h
  subst hdec
  intro r hr
  rcases hsign with rfl | rfl | rfl
  · simp only [List.nil_append] at hr
    obtain ⟨hhlen, hhdig⟩ := hhh
    obtain ⟨c1, c2, rfl⟩ := List.length_eq_two.mp hhlen
    simp only [List.cons_append, List.append_assoc] at hr
    injection hr with h1 _
    subst h1
    exact absurd (hhdig '.' (by simp)) (by decide)
  · simp only [List.cons_append, List.nil_append] at hr
    injection hr with h1 _
    exact absurd h1 (by decide)
  · simp only [List.cons_append, List.nil_append] at hr
    injection hr with h1 _
    exact absurd h1 (by decide)

theorem matchIso_eval_run (a b c d e f T : List Char)
    (ha : DigitRun 4 a) (hb : DigitRun 2 b) (hc : DigitRun 2 c)
    (hd : DigitRun 2 d) (he : DigitRun 2 e) (hf : DigitRun 2 f)
    (fv : Nat) (r12 : List Char) (hT : matchFrac T = (fv, r12))
    (hOff : matchOffsetEnd r12 = some r12) :
    ∃ v1 v2 v3 v4 v5 v6, matchIso (a ++ '-' :: (b ++ '-' :: (c ++ 'T' :: (d ++ ':' :: (e ++ ':' :: (f ++ T)))))) = some (v1, v2, v3, v4, v5, v6, fv, r12) := by
  obtain ⟨v1, h1⟩ := readDigits_run 4 a ('-' :: (b ++ '-' :: (c ++ 'T' :: (d ++ ':' :: (e ++ ':' :: (f ++ T)))))) ha
  obtain ⟨v2, h2⟩ := readDigits_run 2 b ('-' :: (c ++ 'T' :: (d ++ ':' :: (e ++ ':' :: (f ++ T))))) hb
  obtain ⟨v3, h3⟩ := readDigits_run 2 c ('T' :: (d ++ ':' :: (e ++ ':' :: (f ++ T)))) hc
  obtain ⟨v4, h4⟩ := readDigits_run 2 d (':' :: (e ++ ':' :: (f ++ T))) hd
  obtain ⟨v5, h5⟩ := readDigits_run 2 e (':' :: (f ++ T)) he
  obtain ⟨v6, h6⟩ := readDigits_run 2 f T hf
  refine ⟨v1, v2, v3, v4, v5, v6, ?_⟩
  simp only [matchIso, h1, h2, h3, h4, h5, h6, hT, hOff]

theorem matchIso_shape (cs : List Char) (y mo d h mi s fr : Nat) (off : List Char)
    (hm : matchIso cs = some (y, mo, d, h, mi, s, fr, off)) : SpecIsoShape cs := by
  unfold matchIso at hm
  split at hm
  · exact absurd hm (by simp)
  · rename_i v1 r1 heq1
    split at hm
    · rename_i r2
      split at hm
      · exact absurd hm (by simp)
      · rename_i v2 r3 heq2
        split at hm
        · rename_i r4
          split at hm
          · exact absurd hm (by simp)
          · rename_i v3 r5 heq3
            split at hm
            · rename_i r6
              split at hm
              · exact absurd hm (by simp)
              · rename_i v4 r7 heq4
                split at hm
                · rename_i r8
                  split at hm
                  · exact absurd hm (by simp)
                  · rename_i v5 r9 heq5
                    split at hm
                    · rename_i r10
                      split at hm
                      · exact absurd hm (by simp)
                      · rename_i v6 r11 heq6
                        rcases hfr : matchFrac r11 with ⟨fv, r12⟩
                        simp only [hfr] at hm
                        split at hm
                        · exact absurd hm (by simp)
                        · rename_i off2 heqo
                          obtain ⟨_, hsho⟩ := matchOffsetEnd_shape r12 off2 heqo
                          obtain ⟨yy, hc1, hl1, hd1⟩ := readDigits_some 4 0 cs v1 _ heq1
                          obtain ⟨mo2, hc2, hl2, hd2⟩ := readDigits_some 2 0 r2 v2 _ heq2
                          obtain ⟨dd, hc3, hl3, hd3⟩ := readDigits_some 2 0 r4 v3 _ heq3
                          obtain ⟨hh2, hc4, hl4, hd4⟩ := readDigits_some 2 0 r6 v4 _ heq4
                          obtain ⟨mi2, hc5, hl5, hd5⟩ := readDigits_some 2 0 r8 v5 _ heq5
                          obtain ⟨ss2, hc6, hl6, hd6⟩ := readDigits_some 2 0 r10 v6 _ heq6
                          rcases matchFrac_inv r11 fv r12 hfr with ⟨hr12, _⟩ | ⟨f3, hr11, hf3⟩
                          · subst hr12
                            refine ⟨yy, mo2, dd, hh2, mi2, ss2, [], r12,
                              ?_, ⟨hl1, hd1⟩, ⟨hl2, hd2⟩, ⟨hl3, hd3⟩, ⟨hl4, hd4⟩,
                              ⟨hl5, hd5⟩, ⟨hl6, hd6⟩, .inl rfl, hsho⟩
                            subst hc1
                            simp [hc2, hc3, hc4, hc5, hc6, List.cons_append,
                              List.append_assoc]
                          · subst hr11
                            refine ⟨yy, mo2, dd, hh2, mi2, ss2, '.' :: f3, r12,
                              ?_, ⟨hl1, hd1⟩, ⟨hl2, hd2⟩, ⟨hl3, hd3⟩, ⟨hl4, hd4⟩,
                              ⟨hl5, hd5⟩, ⟨hl6, hd6⟩, .inr ⟨f3, rfl, hf3⟩, hsho⟩
                            subst hc1
                            simp [hc2, hc3, hc4, hc5, hc6, List.cons_append,
                              List.append_assoc]
                    · exact absurd hm (by simp)
                · exact absurd hm (by simp)
            · exact absurd hm (by simp)
        · exact absurd hm (by simp)
    · exact absurd hm (by simp)

theorem matchIso_complete (cs : List Char) (h : SpecIsoShape cs) :
    ∃ y mo d hh mi s fr off2, matchIso cs = some (y, mo, d, hh, mi, s, fr, off2) := by
  obtain ⟨yy, mo2, dd, hh2, mi2, ss2, frac, offl, hdec, hyy, hmo, hdd, hhh, hmi, hss, hfrac, hoff⟩ := h
  subst hdec
  have hoffm := matchOffsetEnd_complete offl hoff
  rcases hfrac with rfl | ⟨f3, rfl, hf3⟩
  · simp only [List.cons_append, List.nil_append, List.append_assoc, List.append_nil]
    have hnd := SpecOffsetShape_not_dot offl hoff
    obtain ⟨v1, v2, v3, v4, v5, v6, hev⟩ := matchIso_eval_run yy mo2 dd hh2 mi2 ss2 offl
      hyy hmo hdd hhh hmi hss 0 offl (matchFrac_nodot offl hnd) hoffm
    exact ⟨v1, v2, v3, v4, v5, v6, 0, offl, hev⟩
  · simp only [List.cons_append, List.nil_append, List.append_assoc]
    obtain ⟨fv, hfv⟩ := matchFrac_dot_run f3 offl hf3
    obtain ⟨v1, v2, v3, v4, v5, v6, hev⟩ := matchIso_eval_run yy mo2 dd hh2 mi2 ss2
      ('.' :: (f3 ++ offl)) hyy hmo hdd hhh hmi hss fv offl hfv hoffm
    exact ⟨v1, v2, v3, v4, v5, v6, fv, offl, hev⟩

set_option maxHeartbeats 1600000 in
/-- C2 (corrected): the claimed `parse`/`toISOString` round-trip never
succeeds.  For every tuple of valid calendar fields with `ms = 0` and the
UTC timezone, `fromDateTime` succeeds with some `dt` and `dt.toISOString()`
succeeds with some string `e`, but `DateTime.parse e` throws the ISO8601
shape error carrying `e` verbatim instead of recovering `dt`: the
template renders the fraction as the second at width 1 (one or two
digits), while `parse` accepts only a fraction of exactly three digits. -/
theorem C2_parse_toISOString_roundtrip (y mo d h mi s : Int) (hy : 0 ≤ y)
    (hmo : 1 ≤ mo ∧ mo ≤ 12) (hd : 1 ≤ d ∧ d ≤ specMonthLength mo y)
    (hh : 0 ≤ h ∧ h ≤ 23) (hmi : 0 ≤ mi ∧ mi ≤ 59) (hs : 0 ≤ s ∧ s ≤ 59) :
    ∃ (dt : DateTime) (e : String),
      DateTime.fromDateTime y mo d h mi s 0 TimeZone.utc = .ok dt ∧
      DateTime.toISOString dt = .ok e ∧
      DateTime.parse e = .error ("Expected valid ISO8601 date-time, found \x22" ++ e ++ "\x22.") := by
  obtain ⟨dt, hok, hyy, hmm, hdd, hhh, hmin, hsec, _, htz, _⟩ :=
    fromDateTime_fields y mo d h mi s 0 TimeZone.utc hy hmo hd hh hmi hs
      ⟨le_refl 0, by norm_num⟩
  have hsm : specMonthLength mo y ≤ 31 := by
    simp only [specMonthLength]
    split_ifs <;> omega
  obtain ⟨e, he1, he2⟩ := parse_toISO_error dt htz
    (by rw [hyy]; exact hy) (by rw [hmm]; omega) (by rw [hdd]; omega)
    (by rw [hhh]; omega) (by rw [hmin]; omega) (by rw [hsec]; omega)
  exact ⟨dt, e, hok, he1, he2⟩

/-- Witness for C2 at 29 February 2024, 23:59:58 UTC. -/
theorem C2_parse_toISOString_roundtrip_witness :
    ∃ (dt : DateTime) (e : String),
      DateTime.fromDateTime 2024 2 29 23 59 58 0 TimeZone.utc = .ok dt ∧
      DateTime.toISOString dt = .ok e ∧
      DateTime.parse e = .error ("Expected valid ISO8601 date-time, found \x22" ++ e ++ "\x22.") :=
  C2_parse_toISOString_roundtrip 2024 2 29 23 59 58 (by norm_num) (by norm_num)
    (by decide) (by norm_num) (by norm_num) (by norm_num)

/-- C2 counterexample: the epoch instant.  `fromDateTime` of
1970-01-01 00:00:00.000 UTC succeeds, `toISOString` renders
`1970-01-01T00:00:00.0+00:00` (the fraction is the second rendered at
width 1, not a 3-digit millisecond), and `parse` rejects that string with
the ISO8601 shape error, so the round-trip fails at the epoch. -/
theorem C2_parse_toISOString_cex :
    ∃ dt, DateTime.fromDateTime 1970 1 1 0 0 0 0 TimeZone.utc = Except.ok dt ∧
      DateTime.toISOString dt = .ok "1970-01-01T00:00:00.0+00:00" ∧
      DateTime.parse "1970-01-01T00:00:00.0+00:00"
        = .error "Expected valid ISO8601 date-time, found \x221970-01-01T00:00:00.0+00:00\x22." :=
  ⟨⟨0, TimeZone.utc⟩, by rfl, by rfl, by rfl⟩

/-- C3 (code bug): `format` never resolves placeholder arguments.  The
greedy first capture group of the placeholder regular expression consumes
the whole run between the braces, including the colon, so a placeholder
with arguments such as year:4 is looked up in the registry under the full
run as its name — which is absent — and formatting throws the
undefined-component-formatter error instead of invoking the registered
year formatter with arguments 4; likewise for weekday:short, although
both the year and weekday formatters are registered. -/
theorem C3_format_placeholder_args_bug :
    DateTimeFormatter.format "\x7byear:4\x7d" (DateTime.fromTimestamp 0 TimeZone.utc)
      = .error ("Undefined component formatter \x27year:4\x27.") ∧
    DateTimeFormatter.format "\x7bweekday:short\x7d" (DateTime.fromTimestamp 0 TimeZone.utc)
      = .error ("Undefined component formatter \x27weekday:short\x27.") ∧
    (internalFormatters "year").isSome = true ∧
    (internalFormatters "weekday").isSome = true :=
  ⟨by rfl, by rfl, by rfl, by rfl⟩

/-- C7: classification of `parse` errors.  For every input string: when its
characters do not match the fixed grammar `YYYY-MM-DDTHH:MM:SS[.mmm]±HH:MM`
(`SpecIsoShape`, stated from the spec grammar: 4-digit year, 2-digit month,
day, hour, minute and second, optional exactly-3-digit fraction, mandatory
offset with optional sign and colon), `parse` throws the single shape error
carrying the original string verbatim; when they do match, the regular
expression succeeds and the matched numeric fields are handed to
`fromDateTime`, so out-of-range values surface the field-specific
validation errors instead — e.g. month 13 yields the month error. -/
theorem C7_parse_error_classification (s : String) :
    (¬ SpecIsoShape s.data →
      DateTime.parse s = .error ("Expected valid ISO8601 date-time, found \x22" ++ s ++ "\x22.")) ∧
    (SpecIsoShape s.data → ∃ y mo d h mi sec f off,
      matchIso s.data = some (y, mo, d, h, mi, sec, f, off) ∧
      DateTime.parse s = DateTime.fromDateTime (y : Int) (mo : Int) (d : Int) (h : Int)
        (mi : Int) (sec : Int) (f : Int) (TimeZone.ofString ⟨off⟩)) ∧
    DateTime.parse "1970-13-01T00:00:00+00:00" = .error ("Expected valid month, found 13.") := by
  refine ⟨?_, ?_, by rfl⟩
  · intro hns
    cases hmio : matchIso s.data with
    | none => simp only [DateTime.parse, hmio]
    | some t =>
      obtain ⟨y, mo, d, h, mi, sec, f, off⟩ := t
      exact absurd (matchIso_shape s.data y mo d h mi sec f off hmio) hns
  · intro hs
    obtain ⟨y, mo, d, h, mi, sec, f, off, hmio⟩ := matchIso_complete s.data hs
    exact ⟨y, mo, d, h, mi, sec, f, off, hmio, by simp only [DateTime.parse, hmio]⟩

/-- Witness for C7: the truncated input 1970-01-01T00:00:0 (one second
digit missing) does not match the grammar — any match needs at least 21
characters — and `parse` throws the shape error carrying it verbatim. -/
theorem C7_parse_error_classification_witness :
    DateTime.parse "1970-01-01T00:00:0"
      = .error ("Expected valid ISO8601 date-time, found \x221970-01-01T00:00:0\x22.") :=
  (C7_parse_error_classification "1970-01-01T00:00:0").1 (by
    rintro ⟨yy, mo2, dd, hh2, mi2, ss2, frac, offl, hdec, hyy, hmo, hdd, hhh, hmi, hss,
      hfrac, hoff⟩
    have hlen : ("1970-01-01T00:00:0".data).length = 18 := rfl
    rw [hdec] at hlen
    obtain ⟨sign, hho, colo, mmo, hodec, hsign, hhho, hcolo, hmmo⟩ := hoff
    subst hodec
    have l1 := hyy.1
    have l2 := hmo.1
    have l3 := hdd.1
    have l4 := hhh.1
    have l5 := hmi.1
    have l6 := hss.1
    have l7 := hhho.1
    have l8 := hmmo.1
    rcases hsign with rfl | rfl | rfl <;> rcases hcolo with rfl | rfl <;>
      rcases hfrac with rfl | ⟨f3, rfl, hf3⟩ <;>
      simp only [List.length_append, List.length_cons, List.length_nil] at hlen <;>
      omega)

/-- C8: the built-in ms component formatter renders the second field of the
view (zero-padded to the requested width, default 1), not the millisecond
field; consequently the canonical ISO-8601 template used by `toISOString`
renders the second twice — as the 2-digit seconds component after the last
colon and again after the dot, where the spec documents milliseconds — and
the millisecond field appears nowhere in the rendered string. -/
theorem C8_ms_renders_second :
    (∀ (dt : DateTime) (args : Option String),
      (internalFormatters "ms").map (fun fmt => fmt dt args)
        = some (DateTimeFormatter.pad dt.second (jsParseInt (args.getD "1")) '0')) ∧
    (∀ dt : DateTime, DateTime.toISOString dt = .ok (String.mk ((DateTimeFormatter.pad (dt.year.tmod 10000) 4 '0').data ++ ('-' :: ((DateTimeFormatter.pad dt.month 2 '0').data ++ ('-' :: ((DateTimeFormatter.pad dt.day 2 '0').data ++ ('T' :: ((DateTimeFormatter.pad dt.hour 2 '0').data ++ (':' :: ((DateTimeFormatter.pad dt.minute 2 '0').data ++ (':' :: ((DateTimeFormatter.pad dt.second 2 '0').data ++ ('.' :: ((DateTimeFormatter.pad dt.second 1 '0').data ++ (((if dt.timeZone.offset < 0 then "-" else "+") ++ DateTimeFormatter.pad ((dt.timeZone.offset.natAbs : Int) / 60) 2 '0' ++ ":" ++ DateTimeFormatter.pad ((dt.timeZone.offset.natAbs : Int) % 60) 2 '0').data ++ [])))))))))))))))) :=
  ⟨fun _ _ => rfl, fun dt => isoClosed dt⟩

/-- C9 counterexample: at timestamp -62167219200001 (one millisecond
before 1 January of year 0, UTC) the cached year is -1 and fails the
year validator, so the claimed invariant `year ≥ 0` does not hold for
every signed timestamp; the remaining field ranges do hold for all
timestamps. -/
theorem C9_fromTimestamp_negative_year_cex :
    (DateTime.fromTimestamp (-62167219200001) TimeZone.utc).year = -1 ∧
    DateTime.isValidYear (DateTime.fromTimestamp (-62167219200001) TimeZone.utc).year = false :=
  ⟨by rfl, by rfl⟩
